import Mathlib

/-!
# Verification of the ARMv6 code generator `cg_arm.c`

A shallow embedding of `src/60_TripleTest/cg_arm.c`.  The C globals
(`freereg`, `Intlist`, `Intslot`, the output stream `Outfile`) become the
fields of one state record `CG` that every operation threads; `fatal` and
`fatald` become the error side of `Except`; every `fprintf` becomes one
structured line `Asm` appended to `Outfile`, and `Asm.render` gives the text
the C format string produces.
-/

namespace CgArm

/-! ## Fatal errors -/

/-- How a call ends without a result: `fatal(msg)`, `fatald(msg, d)`, or an
array read outside the bounds of a table, which C leaves undefined. -/
inductive Fatal where
  | fatal (msg : String)
  | fatald (msg : String) (d : Int)
  | undefined
  deriving DecidableEq, Repr

/-- Modelled from the spec: the helper `fatal` of `misc.c`, which is not among
the sources.  Section 7 of the spec: every fatal error aborts the compilation
of the unit at the point of detection, so nothing after the call runs. -/
def fatal {α : Type} (msg : String) : Except Fatal α :=
  Except.error (Fatal.fatal msg)

/-- Modelled from the spec: the helper `fatald` of `misc.c` (a fatal error that
also reports an integer), which is not among the sources; it aborts like
`fatal`. -/
def fatald {α : Type} (msg : String) (d : Int) : Except Fatal α :=
  Except.error (Fatal.fatald msg d)

/-! ## Constants and tables of `defs.h` and `data.h` -/

/-- The enumeration constants of `defs.h` that `cg_arm.c` uses.  The header is
not among the sources, so the values are parameters of the development. -/
structure Defs where
  NOREG : Int
  A_EQ : Int
  A_NE : Int
  A_LT : Int
  A_GT : Int
  A_LE : Int
  A_GE : Int
  P_CHAR : Int
  P_INT : Int
  P_LONG : Int
  P_CHARPTR : Int
  P_INTPTR : Int
  P_LONGPTR : Int
  S_VARIABLE : Int
  deriving DecidableEq, Repr

/-- The relational operators are six consecutive enumerators, in the order the
source gives for its tables: `A_EQ, A_NE, A_LT, A_GT, A_LE, A_GE`. -/
def Defs.RelContiguous (D : Defs) : Prop :=
  D.A_NE = D.A_EQ + 1 ∧ D.A_LT = D.A_EQ + 2 ∧ D.A_GT = D.A_EQ + 3 ∧
  D.A_LE = D.A_EQ + 4 ∧ D.A_GE = D.A_EQ + 5

instance (D : Defs) : Decidable D.RelContiguous := by
  unfold Defs.RelContiguous; infer_instance

/-- The primitive types named by the `case` labels of one `switch` are
different values (C rejects duplicate case labels). -/
def Defs.TypesDistinct (D : Defs) : Prop :=
  [D.P_CHAR, D.P_INT, D.P_LONG, D.P_CHARPTR, D.P_INTPTR, D.P_LONGPTR].Nodup

instance (D : Defs) : Decidable D.TypesDistinct := by
  unfold Defs.TypesDistinct; infer_instance

/-- The type is one of the five `case` labels of the word-width case. -/
def Defs.wordType (D : Defs) (t : Int) : Prop :=
  t = D.P_INT ∨ t = D.P_LONG ∨ t = D.P_CHARPTR ∨ t = D.P_INTPTR ∨ t = D.P_LONGPTR

/-- The type is none of the six `case` labels of the `switch`. -/
def Defs.badType (D : Defs) (t : Int) : Prop :=
  t ≠ D.P_CHAR ∧ t ≠ D.P_INT ∧ t ≠ D.P_LONG ∧ t ≠ D.P_CHARPTR ∧ t ≠ D.P_INTPTR ∧
    t ≠ D.P_LONGPTR

instance (D : Defs) (t : Int) : Decidable (D.wordType t) := by
  unfold Defs.wordType; infer_instance

instance (D : Defs) (t : Int) : Decidable (D.badType t) := by
  unfold Defs.badType; infer_instance

/-- The function `ptrtype` of `types.c` is not among the sources and is a
parameter of `cgprimsize`.  This is the part of its contract that the width of
a global depends on: it answers true on the three pointer types and false on
`P_CHAR`. -/
def Defs.PtrtypeOk (D : Defs) (ptrtype : Int → Bool) : Prop :=
  ptrtype D.P_CHAR = false ∧ ptrtype D.P_CHARPTR = true ∧ ptrtype D.P_INTPTR = true ∧
    ptrtype D.P_LONGPTR = true

instance (D : Defs) (ptrtype : Int → Bool) : Decidable (D.PtrtypeOk ptrtype) := by
  unfold Defs.PtrtypeOk; infer_instance

/-- One entry of the symbol table (`struct symtable` of `defs.h`): the fields
that `cg_arm.c` reads. -/
structure Sym where
  name : String
  type : Int
  stype : Int
  endlabel : Int
  deriving DecidableEq, Repr

/-- The read-only view of the symbol table the generator works on: the
constants, the array `Symtable` and the count `Globs` of `data.h`. -/
structure Env where
  D : Defs
  Symtable : Nat → Sym
  Globs : Nat

/-! ## Output lines -/

/-- The machine registers that appear in the output: the scratch registers
`r0`, `r1`, `r3` written in the format strings and the four allocatable
registers of `reglist`. -/
inductive Reg where
  | r0 | r1 | r3 | r4 | r5 | r6 | r7
  deriving DecidableEq, Repr

/-- The name of a register as printed. -/
def Reg.name : Reg → String
  | .r0 => "r0" | .r1 => "r1" | .r3 => "r3"
  | .r4 => "r4" | .r5 => "r5" | .r6 => "r6" | .r7 => "r7"

/-- The table `reglist[4] = { "r4", "r5", "r6", "r7" }`. -/
def reglist : Fin 4 → Reg := ![Reg.r4, Reg.r5, Reg.r6, Reg.r7]

/-- The ARM condition suffixes used by the comparison tables. -/
inductive Cond where
  | eq | ne | lt | gt | le | ge
  deriving DecidableEq, Repr

/-- The suffix of a condition as printed. -/
def Cond.suffix : Cond → String
  | .eq => "eq" | .ne => "ne" | .lt => "lt" | .gt => "gt" | .le => "le" | .ge => "ge"

/-- The table `cmplist = { "moveq", "movne", "movlt", "movgt", "movle", "movge" }`,
each entry as the condition of its conditional move. -/
def cmplist : List Cond := [Cond.eq, Cond.ne, Cond.lt, Cond.gt, Cond.le, Cond.ge]

/-- The table `invcmplist = { "movne", "moveq", "movge", "movle", "movgt", "movlt" }`. -/
def invcmplist : List Cond := [Cond.ne, Cond.eq, Cond.ge, Cond.le, Cond.gt, Cond.lt]

/-- The table `brlist = { "bne", "beq", "bge", "ble", "bgt", "blt" }`, each
entry as the condition of its branch. -/
def brlist : List Cond := [Cond.ne, Cond.eq, Cond.ge, Cond.le, Cond.gt, Cond.lt]

/-- One line written to `Outfile`; each constructor is one `fprintf` format of
the source, with its arguments. -/
inductive Asm where
  /-- `"\tldr\tr3, .L3+%d\n"` -/
  | ldrL3 (offset : Int)
  /-- `"\tldr\tr3, .L2+%d\n"` -/
  | ldrL2 (offset : Int)
  /-- `"\t.text\n"` -/
  | text
  /-- `".L2:\n"` -/
  | labelL2
  /-- `".L3:\n"` -/
  | labelL3
  /-- `"\t.word %s\n"` -/
  | wordSym (name : String)
  /-- `"\t.word %d\n"` -/
  | wordInt (value : Int)
  /-- `"\tmov\t%s, #%d\n"` -/
  | movImm (rd : Reg) (value : Int)
  /-- `"\tldrb\t%s, [%s]\n"`, also with the base `r3` written in the format -/
  | ldrb (rd base : Reg)
  /-- `"\tldr\t%s, [%s]\n"`, also with the base `r3` written in the format -/
  | ldr (rd base : Reg)
  /-- `"\tstrb\t%s, [%s]\n"`, also with the base `r3` written in the format -/
  | strb (rs base : Reg)
  /-- `"\tstr\t%s, [%s]\n"`, also with the base `r3` written in the format -/
  | str (rs base : Reg)
  /-- `"\tadd\t%s, %s, %s\n"` -/
  | add (rd rn rm : Reg)
  /-- `"\tsub\t%s, %s, %s\n"` -/
  | sub (rd rn rm : Reg)
  /-- `"\tmul\t%s, %s, %s\n"` -/
  | mul (rd rn rm : Reg)
  /-- `"\tmov\t%s, %s\n"`, also with `r0`, `r1` or `r3` written in the format -/
  | mov (rd rm : Reg)
  /-- `"\tbl\t%s\n"`, also `"\tbl\t__aeabi_idiv\n"` -/
  | bl (name : String)
  /-- `"\tcmp\t%s, %s\n"` -/
  | cmp (rn rm : Reg)
  /-- `"\t%s\t%s, #%d\n"` with a conditional-move mnemonic of `cmplist` or
  `invcmplist` and the constant 1 or 0 -/
  | movCond (c : Cond) (rd : Reg) (value : Int)
  /-- `"\tuxtb\t%s, %s\n"` -/
  | uxtb (rd rm : Reg)
  /-- `"\t%s\tL%d\n"` with a branch mnemonic of `brlist` -/
  | bCond (c : Cond) (label : Int)
  /-- `"\t.data\n" "\t.globl\t%s\n"`, the two lines one `fprintf` of `cgglobsym`
  prints -/
  | dataGlobl (name : String)
  /-- `"%s:\t.byte\t0\n"` -/
  | byteZero (name : String)
  /-- `"%s:\t.long\t0\n"` -/
  | longZero (name : String)
  deriving DecidableEq, Repr

/-- The text of an output line, as the `fprintf` of the source prints it. -/
def Asm.render : Asm → String
  | .ldrL3 offset => "\tldr\tr3, .L3+" ++ toString offset ++ "\n"
  | .ldrL2 offset => "\tldr\tr3, .L2+" ++ toString offset ++ "\n"
  | .text => "\t.text\n"
  | .labelL2 => ".L2:\n"
  | .labelL3 => ".L3:\n"
  | .wordSym name => "\t.word " ++ name ++ "\n"
  | .wordInt value => "\t.word " ++ toString value ++ "\n"
  | .movImm rd value => "\tmov\t" ++ rd.name ++ ", #" ++ toString value ++ "\n"
  | .ldrb rd base => "\tldrb\t" ++ rd.name ++ ", [" ++ base.name ++ "]\n"
  | .ldr rd base => "\tldr\t" ++ rd.name ++ ", [" ++ base.name ++ "]\n"
  | .strb rs base => "\tstrb\t" ++ rs.name ++ ", [" ++ base.name ++ "]\n"
  | .str rs base => "\tstr\t" ++ rs.name ++ ", [" ++ base.name ++ "]\n"
  | .add rd rn rm => "\tadd\t" ++ rd.name ++ ", " ++ rn.name ++ ", " ++ rm.name ++ "\n"
  | .sub rd rn rm => "\tsub\t" ++ rd.name ++ ", " ++ rn.name ++ ", " ++ rm.name ++ "\n"
  | .mul rd rn rm => "\tmul\t" ++ rd.name ++ ", " ++ rn.name ++ ", " ++ rm.name ++ "\n"
  | .mov rd rm => "\tmov\t" ++ rd.name ++ ", " ++ rm.name ++ "\n"
  | .bl name => "\tbl\t" ++ name ++ "\n"
  | .cmp rn rm => "\tcmp\t" ++ rn.name ++ ", " ++ rm.name ++ "\n"
  | .movCond c rd value =>
      "\tmov" ++ c.suffix ++ "\t" ++ rd.name ++ ", #" ++ toString value ++ "\n"
  | .uxtb rd rm => "\tuxtb\t" ++ rd.name ++ ", " ++ rm.name ++ "\n"
  | .bCond c label => "\tb" ++ c.suffix ++ "\tL" ++ toString label ++ "\n"
  | .dataGlobl name => "\t.data\n" ++ "\t.globl\t" ++ name ++ "\n"
  | .byteZero name => name ++ ":\t.byte\t0\n"
  | .longZero name => name ++ ":\t.long\t0\n"

/-! ## The generator state -/

/-- The mutable globals of `cg_arm.c` and the output stream.  `freereg[i]` is
nonzero when register `i` is available (free) and `0` when it is in use
(owned); `Intlist[0 .. Intslot)` is the literal pool. -/
structure CG where
  freereg : Fin 4 → Int
  Intlist : Nat → Int
  Intslot : Nat
  Outfile : List Asm

/-- The state at program start: C zero-initialises the static `freereg`, and
`Intslot` is initialised to `0`. -/
def CG.init : CG :=
  { freereg := fun _ => 0, Intlist := fun _ => 0, Intslot := 0, Outfile := [] }

/-- The `fprintf(Outfile, ...)` of one line. -/
def CG.emit (s : CG) (line : Asm) : CG :=
  { s with Outfile := s.Outfile ++ [line] }

/-- Register `r` is available: `freereg[r]` is nonzero. -/
def CG.isFree (s : CG) (r : Fin 4) : Prop := s.freereg r ≠ 0

/-- Register `r` is in use: `freereg[r]` is `0`. -/
def CG.isOwned (s : CG) (r : Fin 4) : Prop := s.freereg r = 0

instance (s : CG) (r : Fin 4) : Decidable (s.isFree r) := by
  unfold CG.isFree; infer_instance

instance (s : CG) (r : Fin 4) : Decidable (s.isOwned r) := by
  unfold CG.isOwned; infer_instance

/-! ## Register file -/

/-- `freeall_registers`: `freereg[0] = freereg[1] = freereg[2] = freereg[3] = 1`. -/
def freeall_registers (s : CG) : CG :=
  { s with freereg := fun _ => 1 }

/-- `alloc_register`: the loop `for (i = 0; i < 4; i++)` returns the first `i`
with `freereg[i]` nonzero after clearing it; when the loop ends without a
return, `fatal("Out of registers")`. -/
def alloc_register (s : CG) : Except Fatal (Fin 4 × CG) :=
  match ([0, 1, 2, 3] : List (Fin 4)).find? (fun i => decide (s.freereg i ≠ 0)) with
  | some i => Except.ok (i, { s with freereg := Function.update s.freereg i 0 })
  | none => fatal "Out of registers"

/-- `free_register`: `fatald("Error trying to free register", reg)` when
`freereg[reg] != 0`, else `freereg[reg] = 1`. -/
def free_register (reg : Fin 4) (s : CG) : Except Fatal CG :=
  if s.freereg reg ≠ 0 then fatald "Error trying to free register" (reg.val : Int)
  else Except.ok { s with freereg := Function.update s.freereg reg 1 }

/-! ## Literal pool -/

/-- The capacity `#define MAXINTS 1024`. -/
def MAXINTS : Nat := 1024

/-- `set_int_offset`: the search loop sets `offset = 4 * i` at the first
`i < Intslot` with `Intlist[i] == val` and breaks; when `offset` is still `-1`
the value is appended (`fatal` when `Intslot == MAXINTS`); then the line
`ldr r3, .L3+offset` is printed. -/
def set_int_offset (val : Int) (s : CG) : Except Fatal CG :=
  let offset : Int :=
    match (List.range s.Intslot).find? (fun i => decide (s.Intlist i = val)) with
    | some i => 4 * (i : Int)
    | none => -1
  if offset = -1 then
    let offset : Int := 4 * (s.Intslot : Int)
    if s.Intslot = MAXINTS then fatal "Out of int slots in set_int_offset()"
    else
      Except.ok (CG.emit
        { s with Intlist := Function.update s.Intlist s.Intslot val,
                 Intslot := s.Intslot + 1 }
        (Asm.ldrL3 offset))
  else Except.ok (s.emit (Asm.ldrL3 offset))

/-- The literal pool as a list: the entries `Intlist[0 .. Intslot)`, in slot
order. -/
def CG.pool (s : CG) : List Int := (List.range s.Intslot).map s.Intlist

/-- A sequence of `set_int_offset` calls, one per value of the list, in order;
it stops at the first call that fails. -/
def internAll : List Int → CG → Except Fatal CG
  | [], s => Except.ok s
  | v :: vs, s =>
    match set_int_offset v s with
    | Except.error e => Except.error e
    | Except.ok s1 => internAll vs s1

set_option linter.unusedVariables false in
/-- `cgloadint`: a new register, then `mov reg, #value` when `value <= 1000`,
else `set_int_offset(value)` and `ldr reg, [r3]`; `return (r)`.  The parameter
`type` is not used by the source. -/
def cgloadint (value type : Int) (s : CG) : Except Fatal (Fin 4 × CG) :=
  match alloc_register s with
  | Except.error e => Except.error e
  | Except.ok (r, s) =>
    if value ≤ 1000 then Except.ok (r, s.emit (Asm.movImm (reglist r) value))
    else
      match set_int_offset value s with
      | Except.error e => Except.error e
      | Except.ok s => Except.ok (r, s.emit (Asm.ldr (reglist r) Reg.r3))

/-- One step of a sequence of literal loads: a call `cgloadint(value, type)`,
or a release of registers between two loads (`free_register(r)` or
`freeall_registers()`), which is what makes a fifth load possible. -/
inductive LoadOp where
  | load (value type : Int)
  | free (r : Fin 4)
  | freeall
  deriving DecidableEq, Repr

/-- Running a sequence of literal loads and register releases in order; it
stops at the first call that fails. -/
def runLoads : List LoadOp → CG → Except Fatal CG
  | [], s => Except.ok s
  | LoadOp.load value type :: ops, s =>
    match cgloadint value type s with
    | Except.error e => Except.error e
    | Except.ok (_, s1) => runLoads ops s1
  | LoadOp.free r :: ops, s =>
    match free_register r s with
    | Except.error e => Except.error e
    | Except.ok s1 => runLoads ops s1
  | LoadOp.freeall :: ops, s => runLoads ops (freeall_registers s)

/-! ## Module framing -/

/-- `cgpreamble`: `freeall_registers()` and the line `.text`. -/
def cgpreamble (s : CG) : CG :=
  (freeall_registers s).emit Asm.text

/-- `cgpostamble`: the label `.L2`, one `.word name` per `i < Globs` with
`Symtable[i].stype == S_VARIABLE`, the label `.L3`, one `.word value` per
`i < Intslot`. -/
def cgpostamble (E : Env) (s : CG) : CG :=
  let s := s.emit Asm.labelL2
  let s := (List.range E.Globs).foldl
    (fun s i =>
      if (E.Symtable i).stype = E.D.S_VARIABLE then s.emit (Asm.wordSym (E.Symtable i).name)
      else s) s
  let s := s.emit Asm.labelL3
  (List.range s.Intslot).foldl (fun s i => s.emit (Asm.wordInt (s.Intlist i))) s

/-! ## Global addressing -/

/-- The value of `offset` at the end of the loop of `set_var_offset`: starting
from `0`, `offset += 4` for every `i < id` with
`Symtable[i].stype == S_VARIABLE`. -/
def var_offset (E : Env) (id : Nat) : Int :=
  (List.range id).foldl
    (fun offset i => if (E.Symtable i).stype = E.D.S_VARIABLE then offset + 4 else offset) 0

/-- `set_var_offset`: prints `ldr r3, .L2+offset`. -/
def set_var_offset (E : Env) (id : Nat) (s : CG) : CG :=
  s.emit (Asm.ldrL2 (var_offset E id))

/-- The symbol table with the entry `f` inserted at index `p`: the entries
from `p` on move up by one. -/
def insertSym (table : Nat → Sym) (p : Nat) (f : Sym) : Nat → Sym :=
  fun i => if i < p then table i else if i = p then f else table (i - 1)

/-- The names listed under `.L2` by `cgpostamble`: the names of the symbols
`i < Globs` with storage class `S_VARIABLE`, in table order. -/
def globalNames (E : Env) : List String :=
  ((List.range E.Globs).filter
    (fun i => decide ((E.Symtable i).stype = E.D.S_VARIABLE))).map
    (fun i => (E.Symtable i).name)

/-- `cgloadglob`: a new register, the offset line, then the `switch` on
`Symtable[id].type`: `ldrb` for `P_CHAR`, `ldr` for the five word types,
`fatald("Bad type in cgloadglob:", type)` by default. -/
def cgloadglob (E : Env) (id : Nat) (s : CG) : Except Fatal (Fin 4 × CG) :=
  match alloc_register s with
  | Except.error e => Except.error e
  | Except.ok (r, s) =>
    let s := set_var_offset E id s
    let t := (E.Symtable id).type
    if t = E.D.P_CHAR then Except.ok (r, s.emit (Asm.ldrb (reglist r) Reg.r3))
    else if t = E.D.P_INT ∨ t = E.D.P_LONG ∨ t = E.D.P_CHARPTR ∨ t = E.D.P_INTPTR
        ∨ t = E.D.P_LONGPTR then
      Except.ok (r, s.emit (Asm.ldr (reglist r) Reg.r3))
    else fatald "Bad type in cgloadglob:" t

/-- `cgstorglob`: the offset line, then the `switch` on `Symtable[id].type`:
`strb` for `P_CHAR`, `str` for the five word types,
`fatald("Bad type in cgstorglob:", type)` by default. -/
def cgstorglob (E : Env) (r : Fin 4) (id : Nat) (s : CG) : Except Fatal (Fin 4 × CG) :=
  let s := set_var_offset E id s
  let t := (E.Symtable id).type
  if t = E.D.P_CHAR then Except.ok (r, s.emit (Asm.strb (reglist r) Reg.r3))
  else if t = E.D.P_INT ∨ t = E.D.P_LONG ∨ t = E.D.P_CHARPTR ∨ t = E.D.P_INTPTR
      ∨ t = E.D.P_LONGPTR then
    Except.ok (r, s.emit (Asm.str (reglist r) Reg.r3))
  else fatald "Bad type in cgstorglob:" t

/-- `cgaddress`: a new register, the offset line, `mov reg, r3`, `return (r)`.
The type of the symbol is not read. -/
def cgaddress (E : Env) (id : Nat) (s : CG) : Except Fatal (Fin 4 × CG) :=
  match alloc_register s with
  | Except.error e => Except.error e
  | Except.ok (r, s) =>
    let s := set_var_offset E id s
    Except.ok (r, s.emit (Asm.mov (reglist r) Reg.r3))

/-- `cgderef`: the `switch` on `type` prints `ldrb r, [r]` for `P_CHARPTR` and
`ldr r, [r]` for `P_INTPTR` and `P_LONGPTR`; it has no `default`, so other
types print nothing; `return (r)`. -/
def cgderef (D : Defs) (r : Fin 4) (type : Int) (s : CG) : Fin 4 × CG :=
  if type = D.P_CHARPTR then (r, s.emit (Asm.ldrb (reglist r) (reglist r)))
  else if type = D.P_INTPTR ∨ type = D.P_LONGPTR then
    (r, s.emit (Asm.ldr (reglist r) (reglist r)))
  else (r, s)

/-- `cgstorderef`: the `switch` on `type` prints `strb r1, [r2]` for `P_CHAR`
and `str r1, [r2]` for `P_INT` and `P_LONG`, and is
`fatald("Can't cgstoderef on type:", type)` by default; `return (r1)`. -/
def cgstorderef (D : Defs) (r1 r2 : Fin 4) (type : Int) (s : CG) :
    Except Fatal (Fin 4 × CG) :=
  if type = D.P_CHAR then Except.ok (r1, s.emit (Asm.strb (reglist r1) (reglist r2)))
  else if type = D.P_INT ∨ type = D.P_LONG then
    Except.ok (r1, s.emit (Asm.str (reglist r1) (reglist r2)))
  else fatald "Can't cgstoderef on type:" type

/-- `cgprimsize`: 4 when `ptrtype(type)`, else the `switch` on `type`: 1 for
`P_CHAR`, 4 for `P_INT` and `P_LONG`, `fatald("Bad type in cgprimsize:", type)`
by default.  It reads and writes no global. -/
def cgprimsize (D : Defs) (ptrtype : Int → Bool) (type : Int) : Except Fatal Int :=
  if ptrtype type then Except.ok 4
  else if type = D.P_CHAR then Except.ok 1
  else if type = D.P_INT ∨ type = D.P_LONG then Except.ok 4
  else fatald "Bad type in cgprimsize:" type

/-- The `switch (typesize)` of `cgglobsym`: `name: .byte 0` for 1,
`name: .long 0` for 4, `fatald("Unknown typesize in cgglobsym: ", typesize)` by
default. -/
def cgglobsym_switch (name : String) (typesize : Int) (s : CG) : Except Fatal CG :=
  if typesize = 1 then Except.ok (s.emit (Asm.byteZero name))
  else if typesize = 4 then Except.ok (s.emit (Asm.longZero name))
  else fatald "Unknown typesize in cgglobsym: " typesize

/-- `cgglobsym`: `typesize = cgprimsize(Symtable[id].type)`, then the lines
`.data` and `.globl name`, then the `switch (typesize)`. -/
def cgglobsym (ptrtype : Int → Bool) (E : Env) (id : Nat) (s : CG) : Except Fatal CG :=
  match cgprimsize E.D ptrtype (E.Symtable id).type with
  | Except.error e => Except.error e
  | Except.ok typesize =>
    let s := s.emit (Asm.dataGlobl (E.Symtable id).name)
    cgglobsym_switch (E.Symtable id).name typesize s

/-! ## Arithmetic -/

/-- `cgadd`: `add r2, r1, r2`, `free_register(r1)`, `return (r2)`. -/
def cgadd (r1 r2 : Fin 4) (s : CG) : Except Fatal (Fin 4 × CG) :=
  match free_register r1 (s.emit (Asm.add (reglist r2) (reglist r1) (reglist r2))) with
  | Except.error e => Except.error e
  | Except.ok s => Except.ok (r2, s)

/-- `cgsub`: `sub r1, r1, r2`, `free_register(r2)`, `return (r1)`. -/
def cgsub (r1 r2 : Fin 4) (s : CG) : Except Fatal (Fin 4 × CG) :=
  match free_register r2 (s.emit (Asm.sub (reglist r1) (reglist r1) (reglist r2))) with
  | Except.error e => Except.error e
  | Except.ok s => Except.ok (r1, s)

/-- `cgmul`: `mul r2, r1, r2`, `free_register(r1)`, `return (r2)`. -/
def cgmul (r1 r2 : Fin 4) (s : CG) : Except Fatal (Fin 4 × CG) :=
  match free_register r1 (s.emit (Asm.mul (reglist r2) (reglist r1) (reglist r2))) with
  | Except.error e => Except.error e
  | Except.ok s => Except.ok (r2, s)

/-- `cgdiv`: `mov r0, r1`, `mov r1, r2`, `bl __aeabi_idiv`, `mov r1, r0` (the
first and last with the registers of the handles), `free_register(r2)`,
`return (r1)`. -/
def cgdiv (r1 r2 : Fin 4) (s : CG) : Except Fatal (Fin 4 × CG) :=
  let s := s.emit (Asm.mov Reg.r0 (reglist r1))
  let s := s.emit (Asm.mov Reg.r1 (reglist r2))
  let s := s.emit (Asm.bl "__aeabi_idiv")
  let s := s.emit (Asm.mov (reglist r1) Reg.r0)
  match free_register r2 s with
  | Except.error e => Except.error e
  | Except.ok s => Except.ok (r1, s)

/-! ## Comparisons -/

/-- The read `table[i]` of a C table of conditions: outside the bounds of the
table the behaviour is undefined. -/
def tableAt (table : List Cond) (i : Int) : Except Fatal Cond :=
  if i < 0 then Except.error Fatal.undefined
  else
    match table.get? i.toNat with
    | some c => Except.ok c
    | none => Except.error Fatal.undefined

/-- `cgcompare_and_set`: the range check on `ASTop`, then `cmp r1, r2`, the
conditional move of `cmplist[ASTop - A_EQ]` with `#1`, the conditional move of
`invcmplist[ASTop - A_EQ]` with `#0`, `uxtb r2, r2`, `free_register(r1)`,
`return (r2)`. -/
def cgcompare_and_set (D : Defs) (ASTop : Int) (r1 r2 : Fin 4) (s : CG) :
    Except Fatal (Fin 4 × CG) :=
  if ASTop < D.A_EQ ∨ ASTop > D.A_GE then fatal "Bad ASTop in cgcompare_and_set()"
  else
    let s := s.emit (Asm.cmp (reglist r1) (reglist r2))
    match tableAt cmplist (ASTop - D.A_EQ) with
    | Except.error e => Except.error e
    | Except.ok c =>
      let s := s.emit (Asm.movCond c (reglist r2) 1)
      match tableAt invcmplist (ASTop - D.A_EQ) with
      | Except.error e => Except.error e
      | Except.ok ic =>
        let s := s.emit (Asm.movCond ic (reglist r2) 0)
        let s := s.emit (Asm.uxtb (reglist r2) (reglist r2))
        match free_register r1 s with
        | Except.error e => Except.error e
        | Except.ok s => Except.ok (r2, s)

/-- `cgcompare_and_jump`: the range check on `ASTop`, then `cmp r1, r2`, the
branch of `brlist[ASTop - A_EQ]` to `L<label>`, `freeall_registers()`,
`return (NOREG)`. -/
def cgcompare_and_jump (D : Defs) (ASTop : Int) (r1 r2 : Fin 4) (label : Int) (s : CG) :
    Except Fatal (Int × CG) :=
  if ASTop < D.A_EQ ∨ ASTop > D.A_GE then fatal "Bad ASTop in cgcompare_and_set()"
  else
    let s := s.emit (Asm.cmp (reglist r1) (reglist r2))
    match tableAt brlist (ASTop - D.A_EQ) with
    | Except.error e => Except.error e
    | Except.ok c =>
      let s := s.emit (Asm.bCond c label)
      Except.ok (D.NOREG, freeall_registers s)

/-! ### The comparisons with the state kept on failure

`Except Fatal` drops the globals when a call ends in `fatal`.  To say what a
failing comparison has printed and done to the register file, the two
comparisons are given once more, statement by statement as in the source, with
the error side carrying the globals at the moment the run stops. -/

/-- `free_register` with the globals kept on failure: the error side carries
the state at the call of `fatald`, which is the state of the call, no write
having been made. -/
def free_register_at (reg : Fin 4) (s : CG) : Except (Fatal × CG) CG :=
  if s.freereg reg ≠ 0 then
    Except.error (Fatal.fatald "Error trying to free register" (reg.val : Int), s)
  else Except.ok { s with freereg := Function.update s.freereg reg 1 }

/-- `cgcompare_and_set` with the globals kept on failure: the same statements
in the same order, the error side carrying the state (register file, pool and
output) reached when the run stops. -/
def cgcompare_and_set_at (D : Defs) (ASTop : Int) (r1 r2 : Fin 4) (s : CG) :
    Except (Fatal × CG) (Fin 4 × CG) :=
  if ASTop < D.A_EQ ∨ ASTop > D.A_GE then
    Except.error (Fatal.fatal "Bad ASTop in cgcompare_and_set()", s)
  else
    let s := s.emit (Asm.cmp (reglist r1) (reglist r2))
    match tableAt cmplist (ASTop - D.A_EQ) with
    | Except.error e => Except.error (e, s)
    | Except.ok c =>
      let s := s.emit (Asm.movCond c (reglist r2) 1)
      match tableAt invcmplist (ASTop - D.A_EQ) with
      | Except.error e => Except.error (e, s)
      | Except.ok ic =>
        let s := s.emit (Asm.movCond ic (reglist r2) 0)
        let s := s.emit (Asm.uxtb (reglist r2) (reglist r2))
        match free_register_at r1 s with
        | Except.error e => Except.error e
        | Except.ok s => Except.ok (r2, s)

/-- `cgcompare_and_jump` with the globals kept on failure: the same statements
in the same order, the error side carrying the state reached when the run
stops. -/
def cgcompare_and_jump_at (D : Defs) (ASTop : Int) (r1 r2 : Fin 4) (label : Int) (s : CG) :
    Except (Fatal × CG) (Int × CG) :=
  if ASTop < D.A_EQ ∨ ASTop > D.A_GE then
    Except.error (Fatal.fatal "Bad ASTop in cgcompare_and_set()", s)
  else
    let s := s.emit (Asm.cmp (reglist r1) (reglist r2))
    match tableAt brlist (ASTop - D.A_EQ) with
    | Except.error e => Except.error (e, s)
    | Except.ok c =>
      let s := s.emit (Asm.bCond c label)
      Except.ok (D.NOREG, freeall_registers s)

/-! ## The target machine

Statements about what the emitted instructions compute need the meaning of
the instructions.  The following is the ARMv6 semantics of the few instructions
involved, on 32-bit two's-complement values kept as integers in
`[-2^31, 2^31)`. -/

/-- The value of a 32-bit register read as a signed integer. -/
def wrap32 (x : Int) : Int := (x + 2 ^ 31) % 2 ^ 32 - 2 ^ 31

/-- A signed 32-bit value. -/
def IsInt32 (x : Int) : Prop := -2 ^ 31 ≤ x ∧ x < 2 ^ 31

instance (x : Int) : Decidable (IsInt32 x) := by
  unfold IsInt32; infer_instance

/-- Registers and the condition flags of the processor. -/
structure Machine where
  reg : Reg → Int
  N : Bool
  Z : Bool
  C : Bool
  V : Bool

/-- Whether a condition passes on the current flags (ARM condition codes:
`eq` is Z, `ne` is not Z, `lt` is N ≠ V, `gt` is not Z and N = V, `le` is Z or
N ≠ V, `ge` is N = V). -/
def Cond.holds (c : Cond) (m : Machine) : Bool :=
  match c with
  | .eq => m.Z
  | .ne => !m.Z
  | .lt => m.N != m.V
  | .gt => !m.Z && (m.N == m.V)
  | .le => m.Z || (m.N != m.V)
  | .ge => m.N == m.V

/-- One instruction of the modelled subset.  `cmp rn, rm` sets the flags from
the 32-bit difference: N its sign, Z whether it is zero, C whether no borrow
occurred, V whether the signed subtraction overflowed.  A conditional move
writes its constant when its condition passes; `uxtb` keeps the low byte;
`add`, `sub` and `mul` write the 32-bit sum, difference `rn - rm` and product;
`bl __aeabi_idiv` runs the runtime division routine `idiv`, a parameter that
maps the registers before the call to the registers after it.  Other lines
have no meaning here. -/
def Machine.step (idiv : (Reg → Int) → (Reg → Int)) (m : Machine) : Asm → Option Machine
  | .cmp rn rm =>
      let a := m.reg rn
      let b := m.reg rm
      let r := wrap32 (a - b)
      some { m with N := decide (r < 0), Z := decide (r = 0),
                    C := decide (b % 2 ^ 32 ≤ a % 2 ^ 32), V := decide (a - b ≠ r) }
  | .movCond c rd value =>
      some (if c.holds m then { m with reg := Function.update m.reg rd value } else m)
  | .uxtb rd rm => some { m with reg := Function.update m.reg rd (m.reg rm % 256) }
  | .mov rd rm => some { m with reg := Function.update m.reg rd (m.reg rm) }
  | .add rd rn rm =>
      some { m with reg := Function.update m.reg rd (wrap32 (m.reg rn + m.reg rm)) }
  | .sub rd rn rm =>
      some { m with reg := Function.update m.reg rd (wrap32 (m.reg rn - m.reg rm)) }
  | .mul rd rn rm =>
      some { m with reg := Function.update m.reg rd (wrap32 (m.reg rn * m.reg rm)) }
  | .bl name => if name = "__aeabi_idiv" then some { m with reg := idiv m.reg } else none
  | _ => none

/-- Executing a straight-line sequence of instructions. -/
def Machine.run (idiv : (Reg → Int) → (Reg → Int)) (m : Machine) : List Asm → Option Machine
  | [] => some m
  | i :: rest =>
    match m.step idiv i with
    | some m1 => Machine.run idiv m1 rest
    | none => none

/-- Whether a conditional branch is taken on the current flags. -/
def Machine.branchTaken (m : Machine) : Asm → Option Bool
  | .bCond c _ => some (c.holds m)
  | _ => none

/-- The signed comparison a condition stands for after `cmp` of `a` and `b`. -/
def Cond.rel (c : Cond) (a b : Int) : Bool :=
  match c with
  | .eq => decide (a = b)
  | .ne => decide (a ≠ b)
  | .lt => decide (a < b)
  | .gt => decide (a > b)
  | .le => decide (a ≤ b)
  | .ge => decide (a ≥ b)

/-- Whether the relation named by the operator `op` holds of `a` and `b`. -/
def Defs.relHolds (D : Defs) (op : Int) (a b : Int) : Bool :=
  if op = D.A_EQ then decide (a = b)
  else if op = D.A_NE then decide (a ≠ b)
  else if op = D.A_LT then decide (a < b)
  else if op = D.A_GT then decide (a > b)
  else if op = D.A_LE then decide (a ≤ b)
  else if op = D.A_GE then decide (a ≥ b)
  else false

/-- The contract of the runtime routine `__aeabi_idiv` under the procedure
call standard: `r0` receives the quotient `q` of the incoming `r0` and `r1`,
and the callee-saved registers `r4` to `r7` are preserved. -/
def IdivContract (q : Int → Int → Int) (idiv : (Reg → Int) → (Reg → Int)) : Prop :=
  ∀ regs : Reg → Int,
    idiv regs Reg.r0 = q (regs Reg.r0) (regs Reg.r1) ∧
    ∀ i : Fin 4, idiv regs (reglist i) = regs (reglist i)

/-- Sample definitions of the constants, used to instantiate the theorems:
the operators from 5 to 10 and the types 2 to 4 and 6 to 8. -/
def sampleDefs : Defs :=
  { NOREG := -1, A_EQ := 5, A_NE := 6, A_LT := 7, A_GT := 8, A_LE := 9, A_GE := 10,
    P_CHAR := 2, P_INT := 3, P_LONG := 4, P_CHARPTR := 6, P_INTPTR := 7, P_LONGPTR := 8,
    S_VARIABLE := 0 }

/-- A sample machine state, used to instantiate the theorems: `r4` holds `a`,
`r5` holds `b`, the other registers 0 and all flags clear. -/
def machineWith (a b : Int) : Machine :=
  { reg := fun r => match r with
      | Reg.r4 => a
      | Reg.r5 => b
      | _ => 0,
    N := false, Z := false, C := false, V := false }

/-- A sample division routine, used to instantiate the theorems: it writes the
truncated quotient of `r0` by `r1` to `r0` and changes nothing else. -/
def sampleIdiv (regs : Reg → Int) : Reg → Int :=
  Function.update regs Reg.r0 (Int.tdiv (regs Reg.r0) (regs Reg.r1))

/-- A sample `ptrtype`, used to instantiate the theorems: true on the sample
pointer types 6, 7 and 8. -/
def samplePtrtype (t : Int) : Bool := decide (t = 6 ∨ t = 7 ∨ t = 8)

/-- A sample state with a full literal pool, used to instantiate the theorems:
all registers free and the 1024 slots holding 2000, 2001, ..., 3023. -/
def fullPool : CG :=
  { freereg := fun _ => 1, Intlist := fun i => 2000 + (i : Int), Intslot := 1024,
    Outfile := [] }

/-- A sample symbol table, used to instantiate the theorems: four variables
`a`, `b`, `c`, `d` (of types int, long, char, int pointer) with the function
`f` between `a` and `b`, and a variable `v` whose type 1 is none of the six
recognised types. -/
def sampleEnv : Env :=
  { D := sampleDefs,
    Symtable := fun i =>
      [ ({ name := "a", type := 3, stype := 0, endlabel := 0 } : Sym),
        { name := "f", type := 3, stype := 1, endlabel := 7 },
        { name := "b", type := 4, stype := 0, endlabel := 0 },
        { name := "c", type := 2, stype := 0, endlabel := 0 },
        { name := "d", type := 7, stype := 0, endlabel := 0 },
        { name := "v", type := 1, stype := 0, endlabel := 0 } ].getD i
        { name := "", type := 0, stype := 0, endlabel := 0 },
    Globs := 6 }

/-! ## Register file: allocation and release -/

/-- A successful `alloc_register` returns a register whose flag was nonzero
and only clears that flag. -/
theorem alloc_register_ok (s : CG) (r : Fin 4) (s1 : CG)
    (h : alloc_register s = Except.ok (r, s1)) :
    s.freereg r ≠ 0 ∧ s1 = { s with freereg := Function.update s.freereg r 0 } := by
  unfold alloc_register at h
  split at h
  · rename_i i hi
    simp only [Except.ok.injEq, Prod.mk.injEq] at h
    obtain ⟨rfl, rfl⟩ := h
    have := List.find?_some hi
    exact ⟨by simpa using this, rfl⟩
  · simp [fatal] at h

/-- C1: after `freeall_registers`, four `alloc_register` calls in a row
succeed with four pairwise distinct handles in 0..3 and the fifth fails with
"Out of registers"; from every state, a successful `alloc_register` returns a
handle that was free before the call and is owned after it, so a handle that
is owned is never returned. -/
theorem C1_alloc_register_distinct (s : CG) :
    (∃ h1 h2 h3 h4 : Fin 4, ∃ s1 s2 s3 s4 : CG,
        alloc_register (freeall_registers s) = Except.ok (h1, s1) ∧
        alloc_register s1 = Except.ok (h2, s2) ∧
        alloc_register s2 = Except.ok (h3, s3) ∧
        alloc_register s3 = Except.ok (h4, s4) ∧
        [h1, h2, h3, h4].Nodup ∧
        h1.val < 4 ∧ h2.val < 4 ∧ h3.val < 4 ∧ h4.val < 4 ∧
        alloc_register s4 = fatal "Out of registers") ∧
    (∀ (r : Fin 4) (s1 : CG), alloc_register s = Except.ok (r, s1) →
        s.isFree r ∧ s1.isOwned r) ∧
    (∀ r : Fin 4, s.isOwned r → ∀ s1 : CG, alloc_register s ≠ Except.ok (r, s1)) := by
  refine ⟨⟨0, 1, 2, 3, _, _, _, _, rfl, rfl, rfl, rfl, by decide, by decide, by decide,
    by decide, by decide, rfl⟩, ?_, ?_⟩
  · intro r s1 h
    obtain ⟨h1, rfl⟩ := alloc_register_ok s r s1 h
    exact ⟨h1, by simp [CG.isOwned]⟩
  · intro r hr s1 h
    exact (alloc_register_ok s r s1 h).1 hr

/-- C1 at a concrete state: with `r4` in use and the rest free, the call
returns handle 1, which was free and is owned afterwards. -/
theorem C1_alloc_register_distinct_witness :
    ∃ s1 : CG,
      alloc_register { CG.init with freereg := ![0, 1, 1, 1] } = Except.ok (1, s1) ∧
      CG.isFree { CG.init with freereg := ![0, 1, 1, 1] } 1 ∧ s1.isOwned 1 :=
  ⟨_, rfl, (C1_alloc_register_distinct { CG.init with freereg := ![0, 1, 1, 1] }).2.1 1 _ rfl⟩

/-- C2: when `r` is owned, `free_register(r)` succeeds and marks `r` free, and
a second `free_register(r)` fails with the double-free error; in every state
the call fails exactly when `r` is already free, and on success only the flag
of `r` changes. -/
theorem C2_free_register (s : CG) (r : Fin 4) :
    (s.isOwned r →
      ∃ s1 : CG, free_register r s = Except.ok s1 ∧ s1.isFree r ∧
        free_register r s1 = fatald "Error trying to free register" (r.val : Int)) ∧
    ((∃ e, free_register r s = Except.error e) ↔ s.isFree r) ∧
    (s.isFree r → free_register r s = fatald "Error trying to free register" (r.val : Int)) ∧
    (∀ s1 : CG, free_register r s = Except.ok s1 →
      s1.freereg r = 1 ∧ (∀ q : Fin 4, q ≠ r → s1.freereg q = s.freereg q) ∧
      s1.Intlist = s.Intlist ∧ s1.Intslot = s.Intslot ∧ s1.Outfile = s.Outfile) := by
  refine ⟨?_, ?_, ?_, ?_⟩
  · intro h
    refine ⟨{ s with freereg := Function.update s.freereg r 1 }, ?_, ?_, ?_⟩
    · simp [free_register, CG.isOwned.eq_1 s r ▸ h]
    · simp [CG.isFree]
    · simp [free_register]
  · by_cases h : s.freereg r = 0 <;> simp [free_register, CG.isFree, h, fatald]
  · intro h
    simp [free_register, CG.isFree.eq_1 s r ▸ h]
  · intro s1 h
    by_cases h0 : s.freereg r = 0
    · simp [free_register, h0] at h
      subst h
      refine ⟨by simp, fun q hq => by simp [Function.update_noteq hq], rfl, rfl, rfl⟩
    · simp [free_register, h0, fatald] at h

/-- C2 at a concrete state: at program start register 2 is owned; freeing it
succeeds and freeing it again fails. -/
theorem C2_free_register_witness :
    ∃ s1 : CG, free_register 2 CG.init = Except.ok s1 ∧ s1.isFree 2 ∧
      free_register 2 s1 = fatald "Error trying to free register" 2 :=
  (C2_free_register CG.init 2).1 (by decide)

/-! ## Literal pool: content addressing -/

/-- The first position of a value in a list is its `indexOf`. -/
theorem indexOf_eq_of_first (v : Int) :
    ∀ (l : List Int) (i : Nat), l[i]? = some v → (∀ j, j < i → l[j]? ≠ some v) →
      List.indexOf v l = i := by
  intro l
  induction l with
  | nil => intro i h; simp at h
  | cons a l ih =>
    intro i h hfirst
    cases i with
    | zero =>
      simp at h
      subst h
      simp
    | succ i =>
      have ha : a ≠ v := by
        have := hfirst 0 (Nat.succ_pos i)
        simpa using this
      rw [List.indexOf_cons_ne _ ha]
      congr 1
      apply ih i (by simpa using h)
      intro j hj
      have := hfirst (j + 1) (by omega)
      simpa using this

/-- The pool has `Intslot` entries. -/
theorem pool_length (s : CG) : s.pool.length = s.Intslot := by
  simp [CG.pool]

/-- Entry `i` of the pool is `Intlist[i]`. -/
theorem pool_getElem? (s : CG) (i : Nat) (h : i < s.Intslot) :
    s.pool[i]? = some (s.Intlist i) := by
  simp [CG.pool, List.getElem?_range h]

/-- A value is in the pool when some slot below `Intslot` holds it. -/
theorem mem_pool (s : CG) (v : Int) : v ∈ s.pool ↔ ∃ i, i < s.Intslot ∧ s.Intlist i = v := by
  simp [CG.pool]

/-- One successful `set_int_offset`: the pool keeps its entries and gains `val`
at the end when it was absent; the offset printed is four times the slot of
`val`; the register file is untouched. -/
theorem set_int_offset_ok (v : Int) (s s1 : CG) (h : set_int_offset v s = Except.ok s1) :
    s1.pool = (if v ∈ s.pool then s.pool else s.pool ++ [v]) ∧
    v ∈ s1.pool ∧
    s1.Outfile = s.Outfile ++ [Asm.ldrL3 (4 * (List.indexOf v s1.pool : Int))] ∧
    s1.freereg = s.freereg := by
  unfold set_int_offset at h
  cases hf : (List.range s.Intslot).find? (fun i => decide (s.Intlist i = v)) with
  | some i =>
    rw [hf] at h
    obtain ⟨hi, hmem, hfirst⟩ := List.find?_range_eq_some.mp hf
    have hi' : s.Intlist i = v := by simpa using hi
    have hlt : i < s.Intslot := List.mem_range.mp hmem
    have hne : ¬ (4 * (i : Int) = -1) := by omega
    simp only [hne, if_false, Except.ok.injEq] at h
    subst h
    have hin : v ∈ s.pool := (mem_pool s v).mpr ⟨i, hlt, hi'⟩
    have hidx : List.indexOf v s.pool = i := by
      apply indexOf_eq_of_first
      · rw [pool_getElem? s i hlt, hi']
      · intro j hj
        rw [pool_getElem? s j (by omega)]
        have := hfirst j hj
        simpa using this
    refine ⟨?_, hin, ?_, rfl⟩
    · show s.pool = _
      rw [if_pos hin]
    · have : (s.emit (Asm.ldrL3 (4 * (i : Int)))).pool = s.pool := rfl
      rw [this, hidx]
      rfl
  | none =>
    rw [hf] at h
    have hnone := List.find?_range_eq_none.mp hf
    have hnot : v ∉ s.pool := by
      rw [mem_pool]
      rintro ⟨i, hi, hv⟩
      have := hnone i hi
      simp [hv] at this
    by_cases hfull : s.Intslot = MAXINTS
    · simp [hfull, fatal] at h
    · simp only [if_true, hfull, if_false, Except.ok.injEq] at h
      subst h
      have hpool : (CG.emit
          ({ s with Intlist := Function.update s.Intlist s.Intslot v, Intslot := s.Intslot + 1 } : CG)
          (Asm.ldrL3 (4 * (s.Intslot : Int)))).pool = s.pool ++ [v] := by
        simp only [CG.pool, CG.emit, List.range_succ, List.map_append, List.map_cons,
          List.map_nil, Function.update_same]
        congr 1
        apply List.map_congr_left
        intro a ha
        have : a ≠ s.Intslot := by
          have := List.mem_range.mp ha
          omega
        simp [Function.update_noteq this]
      refine ⟨by rw [hpool, if_neg hnot], by rw [hpool]; simp, ?_, rfl⟩
      rw [hpool, List.indexOf_append_of_not_mem hnot, List.indexOf_cons_self, pool_length]
      rfl

/-- Calls for `xs ++ ys` are the calls for `xs` followed by the calls for `ys`. -/
theorem internAll_append (xs ys : List Int) (s : CG) :
    internAll (xs ++ ys) s =
      match internAll xs s with
      | Except.error e => Except.error e
      | Except.ok s1 => internAll ys s1 := by
  induction xs generalizing s with
  | nil => rfl
  | cons x xs ih =>
    simp only [List.cons_append, internAll]
    cases set_int_offset x s with
    | error e => rfl
    | ok s1 => exact ih s1

/-- A successful sequence of calls only extends the pool at its end, leaves
every requested value in the pool, prints for each call four times the final
slot of its value, and keeps the pool free of duplicates. -/
theorem internAll_ok (vs : List Int) :
    ∀ (s s1 : CG), internAll vs s = Except.ok s1 →
      (∃ t, s1.pool = s.pool ++ t) ∧ (∀ v ∈ vs, v ∈ s1.pool) ∧
      s1.Outfile = s.Outfile ++ vs.map (fun v => Asm.ldrL3 (4 * (List.indexOf v s1.pool : Int))) ∧
      (s.pool.Nodup → s1.pool.Nodup) ∧ s1.freereg = s.freereg := by
  induction vs with
  | nil =>
    intro s s1 h
    simp only [internAll, Except.ok.injEq] at h
    subst h
    exact ⟨⟨[], by simp⟩, by simp, by simp, id, rfl⟩
  | cons v vs ih =>
    intro s s1 h
    simp only [internAll] at h
    cases hstep : set_int_offset v s with
    | error e => rw [hstep] at h; simp at h
    | ok s2 =>
      rw [hstep] at h
      obtain ⟨hpool, hmem, hout, hfree⟩ := set_int_offset_ok v s s2 hstep
      obtain ⟨⟨t, ht⟩, hall, hout1, hnd, hfree1⟩ := ih s2 s1 h
      have hext : ∃ t2, s2.pool = s.pool ++ t2 := by
        rw [hpool]
        split
        · exact ⟨[], by simp⟩
        · exact ⟨[v], rfl⟩
      obtain ⟨t2, ht2⟩ := hext
      refine ⟨⟨t2 ++ t, by rw [ht, ht2, List.append_assoc]⟩, ?_, ?_, ?_, hfree1.trans hfree⟩
      · intro w hw
        rcases List.mem_cons.mp hw with rfl | hw
        · rw [ht]; exact List.mem_append_left _ hmem
        · exact hall w hw
      · rw [hout1, hout, List.map_cons, List.append_assoc, List.singleton_append]
        congr 3
        rw [ht, List.indexOf_append_of_mem hmem]
      · intro hs
        apply hnd
        rw [hpool]
        split
        · exact hs
        · rename_i hv
          exact List.Nodup.append hs (List.nodup_singleton v) (by simpa using hv)

/-- C3: in a unit whose pool holds no value twice (as at the start of a unit,
where it is empty), for every successful sequence of `set_int_offset` calls:
each call prints one line `ldr r3, .L3+offset`; two calls print the same
offset exactly when they have the same value; the offset of a call is four
times the slot that holds its value; the pool never holds a value twice; the
slots present before any call of the sequence are still present, unchanged,
at the end; and the call that first inserts a value prints four times the
index at which it is inserted. -/
theorem C3_set_int_offset_content_addressed (vs : List Int) (s s1 : CG)
    (hunit : s.pool.Nodup) (hrun : internAll vs s = Except.ok s1) :
    ∃ offs : List Int,
      offs.length = vs.length ∧
      s1.Outfile = s.Outfile ++ offs.map Asm.ldrL3 ∧
      (∀ i j, i < vs.length → j < vs.length → (offs[i]? = offs[j]? ↔ vs[i]? = vs[j]?)) ∧
      (∀ i, i < vs.length → ∃ k : Nat, offs[i]? = some (4 * (k : Int)) ∧ k < s1.Intslot ∧
          vs[i]? = some (s1.Intlist k)) ∧
      s1.pool.Nodup ∧
      (∀ n, n < vs.length → ∃ sn : CG, internAll (vs.take n) s = Except.ok sn ∧
          sn.pool.Nodup ∧ sn.Intslot ≤ s1.Intslot ∧
          (∀ k, k < sn.Intslot → s1.Intlist k = sn.Intlist k) ∧
          (∀ v, vs[n]? = some v → v ∉ sn.pool → offs[n]? = some (4 * (sn.Intslot : Int)))) := by
  obtain ⟨-, hall, hout, hnd, -⟩ := internAll_ok vs s s1 hrun
  have hnd1 := hnd hunit
  have hoff : ∀ i, i < vs.length →
      (vs.map (fun v => 4 * (List.indexOf v s1.pool : Int)))[i]? =
        some (4 * (List.indexOf (vs.getD i 0) s1.pool : Int)) := by
    intro i hi
    simp [List.getElem?_map, List.getElem?_eq_getElem hi, List.getD_eq_getElem _ _ hi]
  have hval : ∀ i, i < vs.length → vs[i]? = some (vs.getD i 0) := by
    intro i hi
    simp [List.getElem?_eq_getElem hi, List.getD_eq_getElem _ _ hi]
  have hmemi : ∀ i, i < vs.length → vs.getD i 0 ∈ s1.pool := by
    intro i hi
    apply hall
    rw [List.getD_eq_getElem _ _ hi]
    exact List.getElem_mem hi
  refine ⟨vs.map (fun v => 4 * (List.indexOf v s1.pool : Int)), by simp, ?_, ?_, ?_, hnd1, ?_⟩
  · rw [hout, List.map_map]
    rfl
  · intro i j hi hj
    rw [hoff i hi, hoff j hj, hval i hi, hval j hj]
    constructor
    · intro h
      have h1 : List.indexOf (vs.getD i 0) s1.pool = List.indexOf (vs.getD j 0) s1.pool := by
        simp only [Option.some.injEq] at h
        omega
      rw [(List.indexOf_inj (hmemi i hi) (hmemi j hj)).mp h1]
    · intro h
      simp only [Option.some.injEq] at h
      rw [h]
  · intro i hi
    have hk : List.indexOf (vs.getD i 0) s1.pool < s1.Intslot := by
      rw [← pool_length]
      exact List.indexOf_lt_length.mpr (hmemi i hi)
    refine ⟨List.indexOf (vs.getD i 0) s1.pool, hoff i hi, hk, ?_⟩
    rw [hval i hi]
    have h1 := List.indexOf_get? (hmemi i hi)
    have h2 := pool_getElem? s1 _ hk
    rw [List.get?_eq_getElem?] at h1
    rw [h1] at h2
    exact h2
  · intro n hn
    have hsplit := internAll_append (vs.take n) (vs.drop n) s
    rw [List.take_append_drop, hrun] at hsplit
    cases hpre : internAll (vs.take n) s with
    | error e => rw [hpre] at hsplit; simp at hsplit
    | ok sn =>
      rw [hpre] at hsplit
      simp only at hsplit
      obtain ⟨-, -, -, hndn, -⟩ := internAll_ok (vs.take n) s sn hpre
      obtain ⟨⟨t, ht⟩, -, -, -, -⟩ := internAll_ok (vs.drop n) sn s1 hsplit.symm
      have hlen : sn.Intslot ≤ s1.Intslot := by
        have := congrArg List.length ht
        simp only [List.length_append, pool_length] at this
        omega
      refine ⟨sn, rfl, hndn hunit, hlen, ?_, ?_⟩
      · intro k hk
        have h1 := pool_getElem? s1 k (by omega)
        have h2 := pool_getElem? sn k hk
        rw [ht, List.getElem?_append_left (by rw [pool_length]; exact hk), h2] at h1
        simpa using h1.symm
      · intro v hv hnot
        have hv' : v = vs.getD n 0 := by
          rw [hval n hn] at hv
          simpa using hv.symm
        have hdrop : vs.drop n = v :: vs.drop (n + 1) := by
          rw [hv', List.getD_eq_getElem _ _ hn]
          exact List.drop_eq_getElem_cons hn
        rw [hdrop] at hsplit
        simp only [internAll] at hsplit
        cases hstep : set_int_offset v sn with
        | error e => rw [hstep] at hsplit; simp at hsplit
        | ok sn1 =>
          rw [hstep] at hsplit
          simp only at hsplit
          obtain ⟨hp, hm, -, -⟩ := set_int_offset_ok v sn sn1 hstep
          rw [if_neg hnot] at hp
          obtain ⟨⟨t1, ht1⟩, -, -, -, -⟩ := internAll_ok (vs.drop (n + 1)) sn1 s1 hsplit.symm
          rw [hoff n hn, ← hv', ht1, List.indexOf_append_of_mem hm, hp,
            List.indexOf_append_of_not_mem hnot, List.indexOf_cons_self, pool_length]
          rfl

/-- C3 at a concrete input: interning 5000, 7000, 5000 from the initial state
prints the offsets 0, 4, 0 and leaves the pool 5000, 7000. -/
theorem C3_set_int_offset_content_addressed_witness :
    ∃ s1 : CG, internAll [5000, 7000, 5000] CG.init = Except.ok s1 ∧ s1.pool.Nodup ∧
      s1.Outfile = [Asm.ldrL3 0, Asm.ldrL3 4, Asm.ldrL3 0] ∧ s1.pool = [5000, 7000] ∧
      s1.Outfile.map Asm.render =
        ["\tldr\tr3, .L3+0\n", "\tldr\tr3, .L3+4\n", "\tldr\tr3, .L3+0\n"] := by
  have h := C3_set_int_offset_content_addressed [5000, 7000, 5000] CG.init _ (by decide) rfl
  obtain ⟨offs, -, -, -, -, hnd, -⟩ := h
  exact ⟨_, rfl, hnd, rfl, rfl, by decide⟩

/-! ## Global addressing -/

/-- One more iteration of the loop of `set_var_offset`. -/
theorem var_offset_succ (E : Env) (id : Nat) :
    var_offset E (id + 1) =
      var_offset E id + (if (E.Symtable id).stype = E.D.S_VARIABLE then 4 else 0) := by
  unfold var_offset
  rw [List.range_succ, List.foldl_append]
  simp only [List.foldl_cons, List.foldl_nil]
  split <;> simp

/-- The loop of `set_var_offset` counts the variables below `id`, four bytes
each. -/
theorem var_offset_eq_card (E : Env) (id : Nat) :
    var_offset E id =
      4 * (((Finset.range id).filter
        (fun i => (E.Symtable i).stype = E.D.S_VARIABLE)).card : Int) := by
  induction id with
  | zero => simp [var_offset]
  | succ n ih =>
    rw [var_offset_succ, ih, Finset.range_succ, Finset.filter_insert]
    by_cases h : (E.Symtable n).stype = E.D.S_VARIABLE
    · rw [if_pos h, if_pos h, Finset.card_insert_of_not_mem (by simp)]
      push_cast
      ring
    · rw [if_neg h, if_neg h]
      simp

/-- The offset of `id` depends only on the table entries below `id`. -/
theorem var_offset_congr (E1 E2 : Env) (id : Nat) (hD : E1.D = E2.D)
    (h : ∀ i, i < id → E1.Symtable i = E2.Symtable i) :
    var_offset E1 id = var_offset E2 id := by
  induction id with
  | zero => simp [var_offset]
  | succ n ih =>
    rw [var_offset_succ, var_offset_succ, ih (fun i hi => h i (by omega)), h n (by omega), hD]

/-- Inserting a symbol that is not a variable at or before `id` does not
change the offset of the symbol that was at `id`. -/
theorem var_offset_insertSym (E : Env) (f : Sym) (hf : f.stype ≠ E.D.S_VARIABLE) (p : Nat) :
    ∀ id, p ≤ id →
      var_offset { E with Symtable := insertSym E.Symtable p f } (id + 1) = var_offset E id := by
  intro id
  induction id with
  | zero =>
    intro hp
    have hp0 : p = 0 := by omega
    subst hp0
    rw [var_offset_succ]
    simp [var_offset, insertSym, hf]
  | succ n ih =>
    intro hp
    rw [var_offset_succ]
    by_cases hpn : p ≤ n
    · rw [ih hpn, var_offset_succ]
      have h1 : ¬ (n + 1 < p) := by omega
      have h2 : ¬ (n + 1 = p) := by omega
      simp [insertSym, h1, h2]
    · have hpe : p = n + 1 := by omega
      subst hpe
      have : var_offset { E with Symtable := insertSym E.Symtable (n + 1) f } (n + 1)
          = var_offset E (n + 1) := by
        exact var_offset_congr _ E (n + 1) rfl (fun i hi => by simp [insertSym, hi])
      rw [this]
      simp [insertSym, hf]

/-- C4: the offset that `set_var_offset(id)` prints is four times the number
of indices `i < id` whose symbol has storage class `S_VARIABLE`; with exactly
three such symbols before `id` it is 12; and inserting a symbol of another
storage class anywhere before a symbol leaves the offset of that symbol
unchanged. -/
theorem C4_set_var_offset (E : Env) (id : Nat) (s : CG) :
    set_var_offset E id s = s.emit (Asm.ldrL2 (4 * (((Finset.range id).filter
      (fun i => (E.Symtable i).stype = E.D.S_VARIABLE)).card : Int))) ∧
    (((Finset.range id).filter (fun i => (E.Symtable i).stype = E.D.S_VARIABLE)).card = 3 →
      set_var_offset E id s = s.emit (Asm.ldrL2 12)) ∧
    (∀ (f : Sym) (p : Nat), f.stype ≠ E.D.S_VARIABLE → p ≤ id →
      set_var_offset { E with Symtable := insertSym E.Symtable p f } (id + 1) s =
        set_var_offset E id s) := by
  refine ⟨?_, ?_, ?_⟩
  · simp only [set_var_offset, var_offset_eq_card]
  · intro h
    simp only [set_var_offset, var_offset_eq_card]
    rw [h]
    rfl
  · intro f p hf hp
    simp only [set_var_offset]
    rw [var_offset_insertSym E f hf p id hp]

/-- C4 at a concrete table: `d` is preceded by the variables `a`, `b`, `c` and
the function `f`, and gets offset 12. -/
theorem C4_set_var_offset_witness :
    set_var_offset sampleEnv 4 CG.init = CG.init.emit (Asm.ldrL2 12) ∧
    (Asm.ldrL2 12).render = "\tldr\tr3, .L2+12\n" :=
  ⟨(C4_set_var_offset sampleEnv 4 CG.init).2.1 (by decide), by decide⟩

/-- The offset of `id` is four times the number of variables listed before
it. -/
theorem var_offset_eq_length (E : Env) (id : Nat) :
    var_offset E id = 4 * (((List.range id).filter
      (fun i => decide ((E.Symtable i).stype = E.D.S_VARIABLE))).length : Int) := by
  induction id with
  | zero => simp [var_offset]
  | succ n ih =>
    rw [var_offset_succ, ih, List.range_succ, List.filter_append]
    by_cases h : (E.Symtable n).stype = E.D.S_VARIABLE
    · simp [h]
      ring
    · simp [h]

/-- The first loop of `cgpostamble` prints one `.word name` per variable, in
table order. -/
theorem foldl_globals (E : Env) (l : List Nat) (s : CG) :
    l.foldl (fun s i =>
      if (E.Symtable i).stype = E.D.S_VARIABLE then s.emit (Asm.wordSym (E.Symtable i).name)
      else s) s =
    { s with Outfile := s.Outfile ++
        ((l.filter (fun i => decide ((E.Symtable i).stype = E.D.S_VARIABLE))).map
          (fun i => Asm.wordSym (E.Symtable i).name)) } := by
  induction l generalizing s with
  | nil => simp
  | cons a l ih =>
    rw [List.foldl_cons, ih]
    by_cases h : (E.Symtable a).stype = E.D.S_VARIABLE
    · simp [h, CG.emit]
    · simp [h]

/-- The second loop of `cgpostamble` prints one `.word value` per slot, in slot
order. -/
theorem foldl_ints (l : List Nat) (s : CG) :
    l.foldl (fun s i => s.emit (Asm.wordInt (s.Intlist i))) s =
    { s with Outfile := s.Outfile ++ l.map (fun i => Asm.wordInt (s.Intlist i)) } := by
  induction l generalizing s with
  | nil => simp
  | cons a l ih =>
    rw [List.foldl_cons, ih]
    simp [CG.emit]

/-- Everything `cgpostamble` prints. -/
theorem cgpostamble_Outfile (E : Env) (s : CG) :
    (cgpostamble E s).Outfile =
      s.Outfile ++ [Asm.labelL2] ++ (globalNames E).map Asm.wordSym ++ [Asm.labelL3] ++
        s.pool.map Asm.wordInt := by
  simp only [cgpostamble]
  rw [foldl_globals, foldl_ints]
  simp [CG.emit, globalNames, CG.pool, Function.comp_def]

/-- The name of a variable stands in the `.L2` list at the position given by
the number of variables before it. -/
theorem globalNames_at (E : Env) (id : Nat) (hid : id < E.Globs)
    (hvar : (E.Symtable id).stype = E.D.S_VARIABLE) :
    (globalNames E)[((List.range id).filter
      (fun i => decide ((E.Symtable i).stype = E.D.S_VARIABLE))).length]? =
      some (E.Symtable id).name := by
  obtain ⟨k, hk⟩ : ∃ k, E.Globs = id + (k + 1) := ⟨E.Globs - id - 1, by omega⟩
  unfold globalNames
  rw [hk, List.range_add, List.range_succ_eq_map, List.filter_append, List.map_append,
    List.getElem?_append_right (by simp)]
  simp [hvar]

/-- C5: `cgpostamble` prints under `.L2` exactly the names of the symbols
`i < Globs` of class `S_VARIABLE`, in table order; and for every such symbol
`id` the offset printed by `set_var_offset(id)` is a non-negative multiple of
four whose quotient by four is the position of the name of `id` in that
list. -/
theorem C5_offsets_agree_with_postamble (E : Env) (s : CG) :
    (cgpostamble E s).Outfile =
      s.Outfile ++ [Asm.labelL2] ++ (globalNames E).map Asm.wordSym ++ [Asm.labelL3] ++
        s.pool.map Asm.wordInt ∧
    (∀ id, id < E.Globs → (E.Symtable id).stype = E.D.S_VARIABLE →
      (set_var_offset E id s).Outfile = s.Outfile ++ [Asm.ldrL2 (var_offset E id)] ∧
      0 ≤ var_offset E id ∧ var_offset E id % 4 = 0 ∧
      (globalNames E)[(var_offset E id / 4).toNat]? = some (E.Symtable id).name) := by
  refine ⟨cgpostamble_Outfile E s, ?_⟩
  intro id hid hvar
  refine ⟨rfl, ?_, ?_, ?_⟩
  · rw [var_offset_eq_length]; omega
  · rw [var_offset_eq_length]; omega
  · have := globalNames_at E id hid hvar
    rw [var_offset_eq_length]
    rw [show (4 * (((List.range id).filter
      (fun i => decide ((E.Symtable i).stype = E.D.S_VARIABLE))).length : Int) / 4).toNat
      = ((List.range id).filter
      (fun i => decide ((E.Symtable i).stype = E.D.S_VARIABLE))).length by omega]
    exact this


/-- C5 at a concrete table: the list under `.L2` is `a, b, c, d, v`, the
offset of `d` is 12, and entry 3 of the list is `d`. -/
theorem C5_offsets_agree_with_postamble_witness :
    (globalNames sampleEnv)[(var_offset sampleEnv 4 / 4).toNat]? = some "d" ∧
    var_offset sampleEnv 4 = 12 ∧ globalNames sampleEnv = ["a", "b", "c", "d", "v"] :=
  ⟨((C5_offsets_agree_with_postamble sampleEnv CG.init).2 4 (by decide) (by decide)).2.2.2,
    by decide, by decide⟩

/-! ## Loads and stores of globals -/

/-- With a free register, `alloc_register` succeeds. -/
theorem alloc_register_of_free (s : CG) (h : ∃ i, s.isFree i) :
    ∃ r s1, alloc_register s = Except.ok (r, s1) := by
  unfold alloc_register
  cases hf : ([0, 1, 2, 3] : List (Fin 4)).find? (fun i => decide (s.freereg i ≠ 0)) with
  | some i => exact ⟨i, _, rfl⟩
  | none =>
    exfalso
    obtain ⟨i, hi⟩ := h
    have := List.find?_eq_none.mp hf i (by fin_cases i <;> simp)
    simp [CG.isFree] at hi this
    exact hi this

/-- With every register owned, `alloc_register` fails with "Out of registers". -/
theorem alloc_register_of_owned (s : CG) (h : ∀ i, s.isOwned i) :
    alloc_register s = fatal "Out of registers" := by
  unfold alloc_register
  simp [CG.isOwned] at h
  simp [h]

/-- A word type is not `P_CHAR`. -/
theorem wordType_ne_char (D : Defs) (hD : D.TypesDistinct) (t : Int) (h : D.wordType t) :
    t ≠ D.P_CHAR := by
  unfold Defs.TypesDistinct at hD
  simp only [List.nodup_cons, List.mem_cons, not_or] at hD
  unfold Defs.wordType at h
  rcases h with h | h | h | h | h <;> rw [h] <;> intro hc <;> simp [hc] at hD

/-- C6 (amended): for every symbol `id`, `cgstorglob` prints `strb` when the
type is `P_CHAR`, `str` when it is one of the five word types, and fails with
the bad-type error otherwise; `cgloadglob` does the same with `ldrb` and `ldr`
on the register it allocates whenever `alloc_register` succeeds, which it
does when a register is free; when every register is owned `cgloadglob`
fails with "Out of registers" whatever the type. -/
theorem C6_load_store_width (E : Env) (hD : E.D.TypesDistinct) (id : Nat) (r : Fin 4) (s : CG) :
    ((E.Symtable id).type = E.D.P_CHAR →
      cgstorglob E r id s =
        Except.ok (r, (set_var_offset E id s).emit (Asm.strb (reglist r) Reg.r3)) ∧
      ∀ q s1, alloc_register s = Except.ok (q, s1) →
        cgloadglob E id s =
          Except.ok (q, (set_var_offset E id s1).emit (Asm.ldrb (reglist q) Reg.r3))) ∧
    (E.D.wordType (E.Symtable id).type →
      cgstorglob E r id s =
        Except.ok (r, (set_var_offset E id s).emit (Asm.str (reglist r) Reg.r3)) ∧
      ∀ q s1, alloc_register s = Except.ok (q, s1) →
        cgloadglob E id s =
          Except.ok (q, (set_var_offset E id s1).emit (Asm.ldr (reglist q) Reg.r3))) ∧
    (E.D.badType (E.Symtable id).type →
      cgstorglob E r id s = fatald "Bad type in cgstorglob:" (E.Symtable id).type ∧
      ∀ q s1, alloc_register s = Except.ok (q, s1) →
        cgloadglob E id s = fatald "Bad type in cgloadglob:" (E.Symtable id).type) ∧
    ((∃ i, s.isFree i) → ∃ q s1, alloc_register s = Except.ok (q, s1)) ∧
    ((∀ i, s.isOwned i) → cgloadglob E id s = fatal "Out of registers") := by
  refine ⟨?_, ?_, ?_, alloc_register_of_free s, ?_⟩
  · intro ht
    refine ⟨by simp [cgstorglob, ht], ?_⟩
    intro q s1 ha
    simp [cgloadglob, ha, ht]
  · intro ht
    have hne := wordType_ne_char E.D hD _ ht
    unfold Defs.wordType at ht
    refine ⟨by simp [cgstorglob, hne, ht], ?_⟩
    intro q s1 ha
    simp [cgloadglob, ha, hne, ht]
  · intro ht
    obtain ⟨h1, h2, h3, h4, h5, h6⟩ := ht
    refine ⟨by simp [cgstorglob, h1, h2, h3, h4, h5, h6], ?_⟩
    intro q s1 ha
    simp [cgloadglob, ha, h1, h2, h3, h4, h5, h6]
  · intro h
    simp [cgloadglob, alloc_register_of_owned s h, fatal]

/-- C6 on the sample table: storing to the char `c` prints `strb`, loading it
with all registers free prints `ldrb r4`, and loading `v`, of type 1, fails
with the bad-type error. -/
theorem C6_load_store_width_witness :
    cgstorglob sampleEnv 2 3 CG.init =
        Except.ok (2, (set_var_offset sampleEnv 3 CG.init).emit (Asm.strb Reg.r6 Reg.r3)) ∧
    (∃ s1 : CG, cgloadglob sampleEnv 3 (freeall_registers CG.init) = Except.ok (0, s1) ∧
      s1.Outfile = [Asm.ldrL2 8, Asm.ldrb Reg.r4 Reg.r3] ∧
      s1.Outfile.map Asm.render = ["\tldr\tr3, .L2+8\n", "\tldrb\tr4, [r3]\n"]) ∧
    cgloadglob sampleEnv 5 (freeall_registers CG.init) = fatald "Bad type in cgloadglob:" 1 :=
  ⟨((C6_load_store_width sampleEnv (by decide) 3 2 CG.init).1 rfl).1,
    ⟨_, ((C6_load_store_width sampleEnv (by decide) 3 2 (freeall_registers CG.init)).1
      rfl).2 0 _ rfl, rfl, by decide⟩,
    ((C6_load_store_width sampleEnv (by decide) 5 2
      (freeall_registers CG.init)).2.2.1 (by decide)).2 0 _ rfl⟩

/-- C6 as stated fails when no register is free: on the sample table with all
four registers in use, `cgloadglob` of the char `c` prints no `ldrb` and
`cgloadglob` of `v`, whose type is none of the six, fails with "Out of
registers" and not with the bad-type error. -/
theorem C6_counterexample :
    sampleEnv.D.TypesDistinct ∧
    (sampleEnv.Symtable 3).type = sampleEnv.D.P_CHAR ∧
    cgloadglob sampleEnv 3 CG.init = fatal "Out of registers" ∧
    sampleEnv.D.badType (sampleEnv.Symtable 5).type ∧
    cgloadglob sampleEnv 5 CG.init = fatal "Out of registers" ∧
    cgloadglob sampleEnv 5 CG.init ≠ fatald "Bad type in cgloadglob:" (sampleEnv.Symtable 5).type := by
  refine ⟨by decide, by decide, rfl, by decide, rfl, ?_⟩
  simp [cgloadglob, alloc_register, CG.init, fatal, fatald]

/-! ## Comparisons -/

/-- The definition of `wrap32` with the powers of two written out. -/
theorem wrap32_eq (x : Int) : wrap32 x = (x + 2147483648) % 4294967296 - 2147483648 := by
  unfold wrap32
  norm_num

/-- The flags of a 32-bit subtraction of signed values: the result is zero
exactly when the operands are equal, and sign and overflow differ exactly
when the first operand is smaller. -/
theorem wrap32_sub_flags (a b : Int) (ha : IsInt32 a) (hb : IsInt32 b) :
    (wrap32 (a - b) = 0 ↔ a = b) ∧
    ((wrap32 (a - b) < 0 ∧ a - b = wrap32 (a - b)) ∨
      (¬ wrap32 (a - b) < 0 ∧ a - b ≠ wrap32 (a - b)) ↔ a < b) := by
  unfold IsInt32 at ha hb
  norm_num at ha hb
  rw [wrap32_eq]
  omega

/-- After `cmp rn, rm` on signed 32-bit values every condition passes exactly
when its comparison holds of the two values; the registers are unchanged. -/
theorem holds_after_cmp (idiv : (Reg → Int) → (Reg → Int)) (m : Machine) (rn rm : Reg)
    (ha : IsInt32 (m.reg rn)) (hb : IsInt32 (m.reg rm)) :
    ∃ m1, m.step idiv (Asm.cmp rn rm) = some m1 ∧ m1.reg = m.reg ∧
      ∀ c : Cond, c.holds m1 = c.rel (m.reg rn) (m.reg rm) := by
  refine ⟨_, rfl, rfl, ?_⟩
  intro c
  obtain ⟨hz, hlt⟩ := wrap32_sub_flags _ _ ha hb
  generalize wrap32 (m.reg rn - m.reg rm) = r at hz hlt
  generalize m.reg rn = a at hz hlt
  generalize m.reg rm = b at hz hlt
  by_cases h1 : r = 0 <;> by_cases h2 : r < 0 <;> by_cases h3 : a - b = r <;>
    cases c <;> simp [Cond.holds, Cond.rel, h1, h2, h3] at hz hlt ⊢ <;> omega

/-- For an operator in range the three tables are read inside their bounds;
the entry of `cmplist` stands for the operator, and the entries of
`invcmplist` and `brlist` are its complement on every flag state. -/
theorem rel_tables (D : Defs) (hD : D.RelContiguous) (op : Int)
    (hlo : D.A_EQ ≤ op) (hhi : op ≤ D.A_GE) :
    ∃ c ic bc : Cond,
      tableAt cmplist (op - D.A_EQ) = Except.ok c ∧
      tableAt invcmplist (op - D.A_EQ) = Except.ok ic ∧
      tableAt brlist (op - D.A_EQ) = Except.ok bc ∧
      (∀ a b, c.rel a b = D.relHolds op a b) ∧
      (∀ m : Machine, ic.holds m = !c.holds m) ∧
      (∀ m : Machine, bc.holds m = !c.holds m) := by
  obtain ⟨h1, h2, h3, h4, h5⟩ := hD
  have hk : op - D.A_EQ = 0 ∨ op - D.A_EQ = 1 ∨ op - D.A_EQ = 2 ∨ op - D.A_EQ = 3 ∨
      op - D.A_EQ = 4 ∨ op - D.A_EQ = 5 := by omega
  have hflags : ∀ (p : Bool → Bool → Bool → Prop), (∀ n z v, p n z v) →
      ∀ m : Machine, p m.N m.Z m.V := fun p hp m => hp m.N m.Z m.V
  rcases hk with hk | hk | hk | hk | hk | hk
  · have hop : op = D.A_EQ := by omega
    refine ⟨Cond.eq, Cond.ne, Cond.ne, by rw [hk]; rfl, by rw [hk]; rfl, by rw [hk]; rfl,
      ?_, fun m => rfl, fun m => rfl⟩
    intro a b
    simp [Cond.rel, Defs.relHolds, hop]
  · have hop : op = D.A_NE := by omega
    have e1 : D.A_NE ≠ D.A_EQ := by omega
    refine ⟨Cond.ne, Cond.eq, Cond.eq, by rw [hk]; rfl, by rw [hk]; rfl, by rw [hk]; rfl,
      ?_, ?_, ?_⟩
    · intro a b
      simp [Cond.rel, Defs.relHolds, hop, e1]
    · intro m; simp [Cond.holds]
    · intro m; simp [Cond.holds]
  · have hop : op = D.A_LT := by omega
    have e1 : D.A_LT ≠ D.A_EQ := by omega
    have e2 : D.A_LT ≠ D.A_NE := by omega
    refine ⟨Cond.lt, Cond.ge, Cond.ge, by rw [hk]; rfl, by rw [hk]; rfl, by rw [hk]; rfl,
      ?_, ?_, ?_⟩
    · intro a b
      simp [Cond.rel, Defs.relHolds, hop, e1, e2]
    · exact hflags (fun n _ v => (n == v) = !(n != v)) (by decide)
    · exact hflags (fun n _ v => (n == v) = !(n != v)) (by decide)
  · have hop : op = D.A_GT := by omega
    have e1 : D.A_GT ≠ D.A_EQ := by omega
    have e2 : D.A_GT ≠ D.A_NE := by omega
    have e3 : D.A_GT ≠ D.A_LT := by omega
    refine ⟨Cond.gt, Cond.le, Cond.le, by rw [hk]; rfl, by rw [hk]; rfl, by rw [hk]; rfl,
      ?_, ?_, ?_⟩
    · intro a b
      simp [Cond.rel, Defs.relHolds, hop, e1, e2, e3]
    · exact hflags (fun n z v => (z || (n != v)) = !(!z && (n == v))) (by decide)
    · exact hflags (fun n z v => (z || (n != v)) = !(!z && (n == v))) (by decide)
  · have hop : op = D.A_LE := by omega
    have e1 : D.A_LE ≠ D.A_EQ := by omega
    have e2 : D.A_LE ≠ D.A_NE := by omega
    have e3 : D.A_LE ≠ D.A_LT := by omega
    have e4 : D.A_LE ≠ D.A_GT := by omega
    refine ⟨Cond.le, Cond.gt, Cond.gt, by rw [hk]; rfl, by rw [hk]; rfl, by rw [hk]; rfl,
      ?_, ?_, ?_⟩
    · intro a b
      simp [Cond.rel, Defs.relHolds, hop, e1, e2, e3, e4]
    · exact hflags (fun n z v => (!z && (n == v)) = !(z || (n != v))) (by decide)
    · exact hflags (fun n z v => (!z && (n == v)) = !(z || (n != v))) (by decide)
  · have hop : op = D.A_GE := by omega
    have e1 : D.A_GE ≠ D.A_EQ := by omega
    have e2 : D.A_GE ≠ D.A_NE := by omega
    have e3 : D.A_GE ≠ D.A_LT := by omega
    have e4 : D.A_GE ≠ D.A_GT := by omega
    have e5 : D.A_GE ≠ D.A_LE := by omega
    refine ⟨Cond.ge, Cond.lt, Cond.lt, by rw [hk]; rfl, by rw [hk]; rfl, by rw [hk]; rfl,
      ?_, ?_, ?_⟩
    · intro a b
      simp [Cond.rel, Defs.relHolds, hop, e1, e2, e3, e4, e5]
    · exact hflags (fun n _ v => (n != v) = !(n == v)) (by decide)
    · exact hflags (fun n _ v => (n != v) = !(n == v)) (by decide)

/-- Conditions depend on the flags only. -/
theorem holds_update_reg (c : Cond) (m : Machine) (f : Reg → Int) :
    c.holds { m with reg := f } = c.holds m := by
  cases c <;> rfl

/-- Running a sequence whose first instruction steps to `m1`. -/
theorem run_cons_of_step (idiv : (Reg → Int) → (Reg → Int)) (m m1 : Machine) (i : Asm)
    (rest : List Asm) (h : m.step idiv i = some m1) :
    Machine.run idiv m (i :: rest) = Machine.run idiv m1 rest := by
  simp [Machine.run, h]

/-- The two complementary conditional moves followed by `uxtb` leave 1 in the
register when the first condition passes and 0 otherwise. -/
theorem run_set_tail (idiv : (Reg → Int) → (Reg → Int)) (mc : Machine) (c ic : Cond)
    (rd : Reg) (hinv : ∀ m : Machine, ic.holds m = !c.holds m) :
    ∃ m1, Machine.run idiv mc
        [Asm.movCond c rd 1, Asm.movCond ic rd 0, Asm.uxtb rd rd] = some m1 ∧
      m1.reg rd = (if c.holds mc then 1 else 0) := by
  cases h : c.holds mc
  · have hi : ic.holds mc = true := by rw [hinv, h]; rfl
    have h1 : mc.step idiv (Asm.movCond c rd 1) = some mc := by
      simp [Machine.step, h]
    have h2 : mc.step idiv (Asm.movCond ic rd 0) =
        some { mc with reg := Function.update mc.reg rd 0 } := by
      simp [Machine.step, hi]
    rw [run_cons_of_step idiv _ _ _ _ h1, run_cons_of_step idiv _ _ _ _ h2]
    exact ⟨_, rfl, by simp⟩
  · have hi : ic.holds { mc with reg := Function.update mc.reg rd 1 } = false := by
      rw [hinv, holds_update_reg, h]; rfl
    have h1 : mc.step idiv (Asm.movCond c rd 1) =
        some { mc with reg := Function.update mc.reg rd 1 } := by
      simp [Machine.step, h]
    have h2 : Machine.step idiv { mc with reg := Function.update mc.reg rd 1 }
        (Asm.movCond ic rd 0) = some { mc with reg := Function.update mc.reg rd 1 } := by
      simp only [Machine.step, hi]
      rfl
    rw [run_cons_of_step idiv _ _ _ _ h1, run_cons_of_step idiv _ _ _ _ h2]
    exact ⟨_, rfl, by simp⟩

/-- C7: for an operator in `A_EQ..A_GE`, with `r1` owned and signed 32-bit
values in the registers of `r1` and `r2`, `cgcompare_and_set` returns `r2`,
frees `r1` (changing no other flag) and prints `cmp`, the conditional move of
`cmplist` with `#1`, the conditional move of `invcmplist` with `#0` and
`uxtb`; the two conditions are complements on every flag state; executing the
four instructions leaves 1 in the register of `r2` when the relation holds of
the two values and 0 otherwise; for the values 5 and 3 the result is 0, 1, 0,
1, 0, 1 for `A_EQ, A_NE, A_LT, A_GT, A_LE, A_GE`. -/
theorem C7_cgcompare_and_set (D : Defs) (hD : D.RelContiguous) (op : Int)
    (hlo : D.A_EQ ≤ op) (hhi : op ≤ D.A_GE) (r1 r2 : Fin 4) (s : CG) (hown : s.isOwned r1)
    (idiv : (Reg → Int) → (Reg → Int)) (m : Machine)
    (ha : IsInt32 (m.reg (reglist r1))) (hb : IsInt32 (m.reg (reglist r2))) :
    ∃ (c ic : Cond) (s1 : CG) (m1 : Machine),
      tableAt cmplist (op - D.A_EQ) = Except.ok c ∧
      tableAt invcmplist (op - D.A_EQ) = Except.ok ic ∧
      (∀ m2 : Machine, ic.holds m2 = !c.holds m2) ∧
      cgcompare_and_set D op r1 r2 s = Except.ok (r2, s1) ∧
      s1.Outfile = s.Outfile ++
        [Asm.cmp (reglist r1) (reglist r2), Asm.movCond c (reglist r2) 1,
          Asm.movCond ic (reglist r2) 0, Asm.uxtb (reglist r2) (reglist r2)] ∧
      s1.freereg = Function.update s.freereg r1 1 ∧
      Machine.run idiv m
        [Asm.cmp (reglist r1) (reglist r2), Asm.movCond c (reglist r2) 1,
          Asm.movCond ic (reglist r2) 0, Asm.uxtb (reglist r2) (reglist r2)] = some m1 ∧
      m1.reg (reglist r2) =
        (if D.relHolds op (m.reg (reglist r1)) (m.reg (reglist r2)) then 1 else 0) ∧
      (m.reg (reglist r1) = 5 → m.reg (reglist r2) = 3 →
        m1.reg (reglist r2) =
          if op = D.A_EQ then 0 else if op = D.A_NE then 1 else if op = D.A_LT then 0
          else if op = D.A_GT then 1 else if op = D.A_LE then 0 else 1) := by
  obtain ⟨c, ic, bc, hc, hic, -, hrel, hinv, -⟩ := rel_tables D hD op hlo hhi
  obtain ⟨mc, hstep, hreg, hholds⟩ :=
    holds_after_cmp idiv m (reglist r1) (reglist r2) ha hb
  have hrange : ¬ (op < D.A_EQ ∨ op > D.A_GE) := by omega
  have hfree : s.freereg r1 = 0 := hown
  obtain ⟨m1, hm1, hval⟩ := run_set_tail idiv mc c ic (reglist r2) hinv
  rw [hholds c, hrel] at hval
  refine ⟨c, ic,
    { s with
      freereg := Function.update s.freereg r1 1,
      Outfile := s.Outfile ++
        [Asm.cmp (reglist r1) (reglist r2), Asm.movCond c (reglist r2) 1,
          Asm.movCond ic (reglist r2) 0, Asm.uxtb (reglist r2) (reglist r2)] },
    m1, hc, hic, hinv, ?_, rfl, rfl, ?_, hval, ?_⟩
  · simp [cgcompare_and_set, hrange, hc, hic, free_register, CG.emit, hfree]
  · rw [run_cons_of_step idiv _ _ _ _ hstep, hm1]
  · intro h5 h3
    rw [hval, h5, h3]
    obtain ⟨h1, h2, h3, h4, h5⟩ := hD
    unfold Defs.relHolds
    split_ifs <;> simp_all
    all_goals omega

/-- C7 at a concrete input: `A_GT` on registers holding 5 and 3 prints `cmp r4,
r5`, `movgt r5, #1`, `movle r5, #0`, `uxtb r5, r5`, and running them leaves 1
in `r5`. -/
theorem C7_cgcompare_and_set_witness :
    ∃ (s1 : CG) (m1 : Machine),
      cgcompare_and_set sampleDefs 8 0 1 CG.init = Except.ok (1, s1) ∧
      s1.Outfile = [Asm.cmp Reg.r4 Reg.r5, Asm.movCond Cond.gt Reg.r5 1,
        Asm.movCond Cond.le Reg.r5 0, Asm.uxtb Reg.r5 Reg.r5] ∧
      s1.Outfile.map Asm.render =
        ["\tcmp\tr4, r5\n", "\tmovgt\tr5, #1\n", "\tmovle\tr5, #0\n",
          "\tuxtb\tr5, r5\n"] ∧
      Machine.run sampleIdiv (machineWith 5 3) s1.Outfile = some m1 ∧
      m1.reg Reg.r5 = 1 := by
  obtain ⟨c, ic, s1, m1, hc, hic, -, hcall, hout, -, hrun, hval, -⟩ :=
    C7_cgcompare_and_set sampleDefs (by decide) 8 (by decide) (by decide) 0 1 CG.init
      (by decide) sampleIdiv (machineWith 5 3) (by decide) (by decide)
  have hc1 : c = Cond.gt := by
    have : tableAt cmplist ((8 : Int) - sampleDefs.A_EQ) = Except.ok Cond.gt := rfl
    rw [this] at hc
    exact (Except.ok.inj hc).symm
  have hic1 : ic = Cond.le := by
    have : tableAt invcmplist ((8 : Int) - sampleDefs.A_EQ) = Except.ok Cond.le := rfl
    rw [this] at hic
    exact (Except.ok.inj hic).symm
  subst hc1 hic1
  refine ⟨s1, m1, hcall, hout, ?_, ?_, ?_⟩
  · rw [hout]
    decide
  · rw [hout]
    exact hrun
  · exact hval.trans (by decide)

/-- C8: for an operator in `A_EQ..A_GE`, from every register-file state,
`cgcompare_and_jump` returns `NOREG`, leaves all four registers free and
prints `cmp r1, r2` and the branch of `brlist` to `L<label>`, which is `bne,
beq, bge, ble, bgt, blt` for `A_EQ, A_NE, A_LT, A_GT, A_LE, A_GE`; after the
`cmp` of signed 32-bit values the branch is taken exactly when the relation
does not hold: for `A_LT` it is taken on (5, 3) and not taken on (3, 5). -/
theorem C8_cgcompare_and_jump (D : Defs) (hD : D.RelContiguous) (op : Int)
    (hlo : D.A_EQ ≤ op) (hhi : op ≤ D.A_GE) (r1 r2 : Fin 4) (label : Int) (s : CG)
    (idiv : (Reg → Int) → (Reg → Int)) (m : Machine)
    (ha : IsInt32 (m.reg (reglist r1))) (hb : IsInt32 (m.reg (reglist r2))) :
    ∃ (bc : Cond) (s1 : CG) (m1 : Machine),
      tableAt brlist (op - D.A_EQ) = Except.ok bc ∧
      ((op = D.A_EQ → bc = Cond.ne) ∧ (op = D.A_NE → bc = Cond.eq) ∧
        (op = D.A_LT → bc = Cond.ge) ∧ (op = D.A_GT → bc = Cond.le) ∧
        (op = D.A_LE → bc = Cond.gt) ∧ (op = D.A_GE → bc = Cond.lt)) ∧
      cgcompare_and_jump D op r1 r2 label s = Except.ok (D.NOREG, s1) ∧
      s1.Outfile = s.Outfile ++ [Asm.cmp (reglist r1) (reglist r2), Asm.bCond bc label] ∧
      (∀ q : Fin 4, s1.isFree q) ∧
      m.step idiv (Asm.cmp (reglist r1) (reglist r2)) = some m1 ∧
      m1.branchTaken (Asm.bCond bc label) =
        some (!D.relHolds op (m.reg (reglist r1)) (m.reg (reglist r2))) ∧
      (op = D.A_LT → m.reg (reglist r1) = 5 → m.reg (reglist r2) = 3 →
        m1.branchTaken (Asm.bCond bc label) = some true) ∧
      (op = D.A_LT → m.reg (reglist r1) = 3 → m.reg (reglist r2) = 5 →
        m1.branchTaken (Asm.bCond bc label) = some false) := by
  obtain ⟨c, ic, bc, -, -, hbc, hrel, -, hinv⟩ := rel_tables D hD op hlo hhi
  obtain ⟨mc, hstep, -, hholds⟩ :=
    holds_after_cmp idiv m (reglist r1) (reglist r2) ha hb
  have hrange : ¬ (op < D.A_EQ ∨ op > D.A_GE) := by omega
  have htaken : mc.branchTaken (Asm.bCond bc label) =
      some (!D.relHolds op (m.reg (reglist r1)) (m.reg (reglist r2))) := by
    simp only [Machine.branchTaken, hinv, hholds c, hrel]
  have hD1 := hD
  obtain ⟨h1, h2, h3, h4, h5⟩ := hD1
  have hat : ∀ k : Int, ∀ x : Cond, op - D.A_EQ = k → tableAt brlist k = Except.ok x →
      bc = x := by
    intro k x hk hx
    rw [hk, hx] at hbc
    exact (Except.ok.inj hbc).symm
  have e1 : D.A_NE ≠ D.A_EQ := by omega
  have e2 : D.A_LT ≠ D.A_EQ := by omega
  have e3 : D.A_LT ≠ D.A_NE := by omega
  refine ⟨bc, { s with freereg := fun _ => 1, Outfile := s.Outfile ++
      [Asm.cmp (reglist r1) (reglist r2), Asm.bCond bc label] }, mc, hbc, ?_, ?_, rfl, ?_,
      hstep, htaken, ?_, ?_⟩
  · refine ⟨fun h => hat 0 _ (by omega) rfl, fun h => hat 1 _ (by omega) rfl,
      fun h => hat 2 _ (by omega) rfl, fun h => hat 3 _ (by omega) rfl,
      fun h => hat 4 _ (by omega) rfl, fun h => hat 5 _ (by omega) rfl⟩
  · simp [cgcompare_and_jump, hrange, hbc, freeall_registers, CG.emit]
  · intro q
    simp [CG.isFree]
  · intro hop ha5 hb3
    rw [htaken, ha5, hb3, hop]
    simp [Defs.relHolds, e2, e3]
  · intro hop ha3 hb5
    rw [htaken, ha3, hb5, hop]
    simp [Defs.relHolds, e2, e3]

/-- C8 at a concrete input: `A_LT` on registers holding 5 and 3 prints `cmp r4,
r5` and `bge L12`, and the branch is taken. -/
theorem C8_cgcompare_and_jump_witness :
    ∃ (s1 : CG) (m1 : Machine),
      cgcompare_and_jump sampleDefs 7 0 1 12 (freeall_registers CG.init) =
        Except.ok (-1, s1) ∧
      s1.Outfile = [Asm.cmp Reg.r4 Reg.r5, Asm.bCond Cond.ge 12] ∧
      s1.Outfile.map Asm.render = ["\tcmp\tr4, r5\n", "\tbge\tL12\n"] ∧
      (machineWith 5 3).step sampleIdiv (Asm.cmp Reg.r4 Reg.r5) = some m1 ∧
      m1.branchTaken (Asm.bCond Cond.ge 12) = some true := by
  obtain ⟨bc, s1, m1, -, hname, hcall, hout, -, hstep, -, h53, -⟩ :=
    C8_cgcompare_and_jump sampleDefs (by decide) 7 (by decide) (by decide) 0 1 12
      (freeall_registers CG.init) sampleIdiv (machineWith 5 3) (by decide) (by decide)
  have hbc : bc = Cond.ge := hname.2.2.1 rfl
  subst hbc
  exact ⟨s1, m1, hcall, hout, by rw [hout]; decide, hstep, h53 rfl rfl rfl⟩

/-! ## Arithmetic -/

/-- The allocatable registers are none of the scratch registers. -/
theorem reglist_ne_scratch (i : Fin 4) :
    reglist i ≠ Reg.r0 ∧ reglist i ≠ Reg.r1 ∧ reglist i ≠ Reg.r3 := by
  fin_cases i <;> decide

/-- Freeing an owned register succeeds and sets its flag. -/
theorem free_register_owned (r : Fin 4) (s : CG) (h : s.isOwned r) :
    free_register r s = Except.ok { s with freereg := Function.update s.freereg r 1 } := by
  have h0 : s.freereg r = 0 := h
  simp [free_register, h0]

/-- C9: for distinct owned handles `r1` and `r2`, `cgdiv` returns `r1`, leaves
`r1` owned, frees `r2` and changes no other flag; it prints `mov r0, r1`,
`mov r1, r2`, `bl __aeabi_idiv`, `mov r1, r0` (the first and last with the
registers of the handles); with a division routine that returns the quotient
`q` in `r0`, running the four instructions leaves `q` of the two operands in
the register of `r1`, which for truncating division and the operands 10 and 3
is 3. -/
theorem C9_cgdiv (r1 r2 : Fin 4) (hne : r1 ≠ r2) (s : CG)
    (h1 : s.isOwned r1) (h2 : s.isOwned r2) :
    ∃ s1 : CG,
      cgdiv r1 r2 s = Except.ok (r1, s1) ∧
      s1.isOwned r1 ∧ s1.isFree r2 ∧
      (∀ q : Fin 4, q ≠ r2 → s1.freereg q = s.freereg q) ∧
      s1.Outfile = s.Outfile ++
        [Asm.mov Reg.r0 (reglist r1), Asm.mov Reg.r1 (reglist r2), Asm.bl "__aeabi_idiv",
          Asm.mov (reglist r1) Reg.r0] ∧
      ∀ (q : Int → Int → Int) (idiv : (Reg → Int) → (Reg → Int)) (m : Machine),
        IdivContract q idiv →
        ∃ m1 : Machine,
          Machine.run idiv m
            [Asm.mov Reg.r0 (reglist r1), Asm.mov Reg.r1 (reglist r2), Asm.bl "__aeabi_idiv",
              Asm.mov (reglist r1) Reg.r0] = some m1 ∧
          m1.reg (reglist r1) = q (m.reg (reglist r1)) (m.reg (reglist r2)) ∧
          (q = Int.tdiv → m.reg (reglist r1) = 10 → m.reg (reglist r2) = 3 →
            m1.reg (reglist r1) = 3) := by
  refine ⟨{ s with
      freereg := Function.update s.freereg r2 1,
      Outfile := s.Outfile ++
        [Asm.mov Reg.r0 (reglist r1), Asm.mov Reg.r1 (reglist r2), Asm.bl "__aeabi_idiv",
          Asm.mov (reglist r1) Reg.r0] }, ?_, ?_, ?_, ?_, rfl, ?_⟩
  · have hown : CG.isOwned ((((s.emit (Asm.mov Reg.r0 (reglist r1))).emit
        (Asm.mov Reg.r1 (reglist r2))).emit (Asm.bl "__aeabi_idiv")).emit
        (Asm.mov (reglist r1) Reg.r0)) r2 := h2
    simp only [cgdiv, free_register_owned _ _ hown]
    simp [CG.emit]
  · show Function.update s.freereg r2 1 r1 = 0
    rw [Function.update_noteq hne]
    exact h1
  · simp [CG.isFree]
  · intro q hq
    show Function.update s.freereg r2 1 q = s.freereg q
    rw [Function.update_noteq hq]
  · intro q idiv m hq
    obtain ⟨hq0, hqsave⟩ := hq (Function.update (Function.update m.reg Reg.r0 (m.reg (reglist r1)))
      Reg.r1 (m.reg (reglist r2)))
    obtain ⟨n0, n1, -⟩ := reglist_ne_scratch r2
    have hval : idiv (Function.update (Function.update m.reg Reg.r0 (m.reg (reglist r1)))
        Reg.r1 (m.reg (reglist r2))) Reg.r0 = q (m.reg (reglist r1)) (m.reg (reglist r2)) := by
      rw [hq0]
      simp [Function.update, n0]
    have e : Function.update m.reg Reg.r0 (m.reg (reglist r1)) (reglist r2) =
        m.reg (reglist r2) := Function.update_noteq n0 _ _
    have hres : (Function.update
        (idiv (Function.update (Function.update m.reg Reg.r0 (m.reg (reglist r1))) Reg.r1
          (Function.update m.reg Reg.r0 (m.reg (reglist r1)) (reglist r2))))
        (reglist r1)
        (idiv (Function.update (Function.update m.reg Reg.r0 (m.reg (reglist r1))) Reg.r1
          (Function.update m.reg Reg.r0 (m.reg (reglist r1)) (reglist r2))) Reg.r0))
        (reglist r1) = q (m.reg (reglist r1)) (m.reg (reglist r2)) := by
      rw [Function.update_same, e, hval]
    refine ⟨_, by simp [Machine.run, Machine.step]; rfl, hres, ?_⟩
    intro hq5 ha hb
    exact hres.trans (by rw [ha, hb, hq5]; rfl)

/-- The sample division routine meets the contract for truncating division. -/
theorem sampleIdiv_contract : IdivContract Int.tdiv sampleIdiv := by
  intro regs
  refine ⟨by simp [sampleIdiv], ?_⟩
  intro i
  have h := (reglist_ne_scratch i).1
  simp [sampleIdiv, Function.update_noteq h]

/-- C9 at a concrete input: dividing `r4` holding 10 by `r5` holding 3 returns
handle 0, frees handle 1 and leaves 3 in `r4`. -/
theorem C9_cgdiv_witness :
    ∃ (s1 : CG) (m1 : Machine),
      cgdiv 0 1 CG.init = Except.ok (0, s1) ∧ s1.isOwned 0 ∧ s1.isFree 1 ∧
      s1.Outfile.map Asm.render =
        ["\tmov\tr0, r4\n", "\tmov\tr1, r5\n", "\tbl\t__aeabi_idiv\n", "\tmov\tr4, r0\n"] ∧
      Machine.run sampleIdiv (machineWith 10 3)
        [Asm.mov Reg.r0 Reg.r4, Asm.mov Reg.r1 Reg.r5, Asm.bl "__aeabi_idiv",
          Asm.mov Reg.r4 Reg.r0] = some m1 ∧
      m1.reg Reg.r4 = 3 := by
  obtain ⟨s1, hcall, ho, hf, -, hout, hrun⟩ :=
    C9_cgdiv 0 1 (by decide) CG.init (by decide) (by decide)
  obtain ⟨m1, hm1, -, h3⟩ := hrun Int.tdiv sampleIdiv (machineWith 10 3) sampleIdiv_contract
  exact ⟨s1, m1, hcall, ho, hf, by rw [hout]; decide, hm1, h3 rfl rfl rfl⟩

/-- C10: for distinct owned handles `r1` and `r2`, `cgadd` and `cgmul` return
`r2`, print an instruction whose destination is the register of `r2` and free
`r1`; `cgsub` returns `r1`, prints `sub` with the register of `r1` as
destination and first operand and that of `r2` as second, which computes the
32-bit difference, and frees `r2`.  In each case the returned handle is still
owned and every flag other than that of the freed register is unchanged. -/
theorem C10_arith_register_choice (r1 r2 : Fin 4) (hne : r1 ≠ r2) (s : CG)
    (h1 : s.isOwned r1) (h2 : s.isOwned r2) :
    (∃ s1 : CG, cgadd r1 r2 s = Except.ok (r2, s1) ∧
      s1.Outfile = s.Outfile ++ [Asm.add (reglist r2) (reglist r1) (reglist r2)] ∧
      s1.isFree r1 ∧ s1.isOwned r2 ∧ ∀ q : Fin 4, q ≠ r1 → s1.freereg q = s.freereg q) ∧
    (∃ s1 : CG, cgmul r1 r2 s = Except.ok (r2, s1) ∧
      s1.Outfile = s.Outfile ++ [Asm.mul (reglist r2) (reglist r1) (reglist r2)] ∧
      s1.isFree r1 ∧ s1.isOwned r2 ∧ ∀ q : Fin 4, q ≠ r1 → s1.freereg q = s.freereg q) ∧
    (∃ s1 : CG, cgsub r1 r2 s = Except.ok (r1, s1) ∧
      s1.Outfile = s.Outfile ++ [Asm.sub (reglist r1) (reglist r1) (reglist r2)] ∧
      s1.isFree r2 ∧ s1.isOwned r1 ∧ (∀ q : Fin 4, q ≠ r2 → s1.freereg q = s.freereg q) ∧
      ∀ (idiv : (Reg → Int) → (Reg → Int)) (m : Machine), ∃ m1 : Machine,
        m.step idiv (Asm.sub (reglist r1) (reglist r1) (reglist r2)) = some m1 ∧
        m1.reg (reglist r1) = wrap32 (m.reg (reglist r1) - m.reg (reglist r2))) := by
  have f1 : ∀ l : Asm, free_register r1 (s.emit l) =
      Except.ok { s.emit l with freereg := Function.update s.freereg r1 1 } :=
    fun l => free_register_owned r1 (s.emit l) h1
  have f2 : ∀ l : Asm, free_register r2 (s.emit l) =
      Except.ok { s.emit l with freereg := Function.update s.freereg r2 1 } :=
    fun l => free_register_owned r2 (s.emit l) h2
  have o1 : Function.update s.freereg r2 1 r1 = 0 := by
    rw [Function.update_noteq hne]; exact h1
  have o2 : Function.update s.freereg r1 1 r2 = 0 := by
    rw [Function.update_noteq (Ne.symm hne)]; exact h2
  refine ⟨⟨{ s with freereg := Function.update s.freereg r1 1,
                     Outfile := s.Outfile ++ [Asm.add (reglist r2) (reglist r1) (reglist r2)] },
      by simp only [cgadd, f1]; rfl, rfl, by simp [CG.isFree], o2, ?_⟩,
    ⟨{ s with freereg := Function.update s.freereg r1 1,
              Outfile := s.Outfile ++ [Asm.mul (reglist r2) (reglist r1) (reglist r2)] },
      by simp only [cgmul, f1]; rfl, rfl, by simp [CG.isFree], o2, ?_⟩,
    ⟨{ s with freereg := Function.update s.freereg r2 1,
              Outfile := s.Outfile ++ [Asm.sub (reglist r1) (reglist r1) (reglist r2)] },
      by simp only [cgsub, f2]; rfl, rfl, by simp [CG.isFree], o1, ?_, ?_⟩⟩
  · intro q hq
    exact Function.update_noteq hq _ _
  · intro q hq
    exact Function.update_noteq hq _ _
  · intro q hq
    exact Function.update_noteq hq _ _
  · intro idiv m
    exact ⟨_, rfl, by simp⟩

/-- C10 at a concrete input: on handles 0 and 1, `cgadd` prints `add r5, r4,
r5` and returns 1, `cgsub` prints `sub r4, r4, r5` and returns 0. -/
theorem C10_arith_register_choice_witness :
    (∃ s1 : CG, cgadd 0 1 CG.init = Except.ok (1, s1) ∧
      s1.Outfile = [Asm.add Reg.r5 Reg.r4 Reg.r5] ∧ s1.isFree 0 ∧ s1.isOwned 1) ∧
    (∃ s1 : CG, cgsub 0 1 CG.init = Except.ok (0, s1) ∧
      s1.Outfile = [Asm.sub Reg.r4 Reg.r4 Reg.r5] ∧ s1.isFree 1 ∧ s1.isOwned 0) ∧
    [Asm.add Reg.r5 Reg.r4 Reg.r5, Asm.sub Reg.r4 Reg.r4 Reg.r5].map Asm.render =
      ["\tadd\tr5, r4, r5\n", "\tsub\tr4, r4, r5\n"] := by
  obtain ⟨⟨s1, ha, hout, hf, ho, -⟩, -, ⟨s2, hs, hout2, hf2, ho2, -⟩⟩ :=
    C10_arith_register_choice 0 1 (by decide) CG.init (by decide) (by decide)
  exact ⟨⟨s1, ha, hout, hf, ho⟩, ⟨s2, hs, hout2, hf2, ho2⟩, by decide⟩

/-! ## Literal loads -/

/-- `alloc_register` leaves the literal pool and the output unchanged. -/
theorem alloc_register_pool (s : CG) (r : Fin 4) (sa : CG)
    (h : alloc_register s = Except.ok (r, sa)) :
    sa.pool = s.pool ∧ sa.Outfile = s.Outfile ∧ sa.Intslot = s.Intslot ∧
      sa.Intlist = s.Intlist := by
  obtain ⟨-, rfl⟩ := alloc_register_ok s r sa h
  exact ⟨rfl, rfl, rfl, rfl⟩

/-- A successful `cgloadint` is a successful `alloc_register` followed by the
`mov` line (value at most 1000) or by a successful `set_int_offset` and the
`ldr` line (value above 1000). -/
theorem cgloadint_ok (value type : Int) (s : CG) (r : Fin 4) (s1 : CG)
    (h : cgloadint value type s = Except.ok (r, s1)) :
    ∃ sa, alloc_register s = Except.ok (r, sa) ∧
      ((value ≤ 1000 ∧ s1 = sa.emit (Asm.movImm (reglist r) value)) ∨
       (1000 < value ∧ ∃ s2, set_int_offset value sa = Except.ok s2 ∧
          s1 = s2.emit (Asm.ldr (reglist r) Reg.r3))) := by
  unfold cgloadint at h
  cases ha : alloc_register s with
  | error e => rw [ha] at h; simp at h
  | ok p =>
    obtain ⟨q, sa⟩ := p
    rw [ha] at h
    simp only at h
    by_cases hv : value ≤ 1000
    · rw [if_pos hv] at h
      simp only [Except.ok.injEq, Prod.mk.injEq] at h
      obtain ⟨rfl, rfl⟩ := h
      exact ⟨sa, rfl, Or.inl ⟨hv, rfl⟩⟩
    · rw [if_neg hv] at h
      cases hs : set_int_offset value sa with
      | error e => rw [hs] at h; simp at h
      | ok s2 =>
        rw [hs] at h
        simp only [Except.ok.injEq, Prod.mk.injEq] at h
        obtain ⟨rfl, rfl⟩ := h
        exact ⟨sa, rfl, Or.inr ⟨by omega, s2, hs, rfl⟩⟩

/-- What a successful `cgloadint` does to the pool and the output. -/
theorem cgloadint_pool (value type : Int) (s : CG) (r : Fin 4) (s1 : CG)
    (h : cgloadint value type s = Except.ok (r, s1)) :
    (value ≤ 1000 → s1.pool = s.pool ∧
      s1.Outfile = s.Outfile ++ [Asm.movImm (reglist r) value]) ∧
    (1000 < value →
      s1.pool = (if value ∈ s.pool then s.pool else s.pool ++ [value]) ∧
      value ∈ s1.pool ∧
      s1.Outfile = s.Outfile ++
        [Asm.ldrL3 (4 * (List.indexOf value s1.pool : Int)), Asm.ldr (reglist r) Reg.r3]) := by
  obtain ⟨sa, ha, hcase⟩ := cgloadint_ok value type s r s1 h
  obtain ⟨hp, ho, -, -⟩ := alloc_register_pool s r sa ha
  rcases hcase with ⟨hv, rfl⟩ | ⟨hv, s2, hs, rfl⟩
  · refine ⟨fun _ => ⟨hp, by simp [CG.emit, ho]⟩, fun h2 => by omega⟩
  · refine ⟨fun h2 => by omega, fun _ => ?_⟩
    obtain ⟨hpool, hmem, hout, -⟩ := set_int_offset_ok value sa s2 hs
    have e : (s2.emit (Asm.ldr (reglist r) Reg.r3)).pool = s2.pool := rfl
    rw [e, hpool, hp]
    refine ⟨rfl, by rw [← hp, ← hpool]; exact hmem, ?_⟩
    rw [← hp, ← hpool]
    simp [CG.emit, hout, ho]

/-- `free_register` leaves the literal pool and the output unchanged. -/
theorem free_register_pool (r : Fin 4) (s s1 : CG) (h : free_register r s = Except.ok s1) :
    s1.pool = s.pool ∧ s1.Outfile = s.Outfile := by
  by_cases h0 : s.freereg r = 0
  · simp [free_register, h0] at h
    subst h
    exact ⟨rfl, rfl⟩
  · simp [free_register, h0, fatald] at h

/-- A successful sequence of literal loads only extends the pool at its end
and keeps it free of duplicates; each load prints its own lines, and a load of
a value above 1000 prints four times the final slot of its value. -/
theorem runLoads_ok (ops : List LoadOp) :
    ∀ (s s1 : CG), runLoads ops s = Except.ok s1 →
      (∃ t, s1.pool = s.pool ++ t) ∧ (s.pool.Nodup → s1.pool.Nodup) ∧
      ∃ outs : List (List Asm), outs.length = ops.length ∧
        s1.Outfile = s.Outfile ++ outs.flatten ∧
        ∀ (i : Nat) (v t : Int), ops[i]? = some (LoadOp.load v t) →
          (v ≤ 1000 → ∃ r, outs[i]? = some [Asm.movImm (reglist r) v]) ∧
          (1000 < v → v ∈ s1.pool ∧ ∃ r, outs[i]? =
            some [Asm.ldrL3 (4 * (List.indexOf v s1.pool : Int)), Asm.ldr (reglist r) Reg.r3]) := by
  induction ops with
  | nil =>
    intro s s1 h
    simp only [runLoads, Except.ok.injEq] at h
    subst h
    exact ⟨⟨[], by simp⟩, id, [], rfl, by simp, by simp⟩
  | cons op ops ih =>
    intro s s1 h
    cases op with
    | load v t =>
      simp only [runLoads] at h
      cases hstep : cgloadint v t s with
      | error e => rw [hstep] at h; simp at h
      | ok p =>
        obtain ⟨r, s2⟩ := p
        rw [hstep] at h
        simp only at h
        obtain ⟨hsmall, hbig⟩ := cgloadint_pool v t s r s2 hstep
        obtain ⟨⟨t2, ht2⟩, hnd, outs, hlen, hout, hall⟩ := ih s2 s1 h
        by_cases hv : v ≤ 1000
        · obtain ⟨hp, ho⟩ := hsmall hv
          refine ⟨⟨t2, by rw [ht2, hp]⟩, fun hs => hnd (by rw [hp]; exact hs),
            [Asm.movImm (reglist r) v] :: outs, by simp [hlen], ?_, ?_⟩
          · rw [hout, ho]; simp
          · intro i w u hi
            cases i with
            | zero =>
              simp only [List.getElem?_cons_zero, Option.some.injEq, LoadOp.load.injEq] at hi
              obtain ⟨rfl, rfl⟩ := hi
              exact ⟨fun _ => ⟨r, by simp⟩, fun h2 => by omega⟩
            | succ i =>
              simp only [List.getElem?_cons_succ] at hi ⊢
              exact hall i w u hi
        · have hv1 : 1000 < v := by omega
          obtain ⟨hp, hm, ho⟩ := hbig hv1
          have hidx : List.indexOf v s1.pool = List.indexOf v s2.pool := by
            rw [ht2, List.indexOf_append_of_mem hm]
          have hext : ∃ t3, s2.pool = s.pool ++ t3 := by
            rw [hp]
            split
            · exact ⟨[], by simp⟩
            · exact ⟨[v], rfl⟩
          obtain ⟨t3, ht3⟩ := hext
          refine ⟨⟨t3 ++ t2, by rw [ht2, ht3, List.append_assoc]⟩, ?_,
            [Asm.ldrL3 (4 * (List.indexOf v s1.pool : Int)), Asm.ldr (reglist r) Reg.r3] :: outs,
            by simp [hlen], ?_, ?_⟩
          · intro hs
            apply hnd
            rw [hp]
            split
            · exact hs
            · rename_i hnot
              exact List.Nodup.append hs (List.nodup_singleton v) (by simpa using hnot)
          · rw [hout, ho, hidx]; simp
          · intro i w u hi
            cases i with
            | zero =>
              simp only [List.getElem?_cons_zero, Option.some.injEq, LoadOp.load.injEq] at hi
              obtain ⟨rfl, rfl⟩ := hi
              refine ⟨fun h2 => by omega, fun _ => ⟨?_, r, by simp⟩⟩
              rw [ht2]
              exact List.mem_append_left _ hm
            | succ i =>
              simp only [List.getElem?_cons_succ] at hi ⊢
              exact hall i w u hi
    | free r =>
      simp only [runLoads] at h
      cases hstep : free_register r s with
      | error e => rw [hstep] at h; simp at h
      | ok s2 =>
        rw [hstep] at h
        simp only at h
        obtain ⟨hp, ho⟩ := free_register_pool r s s2 hstep
        obtain ⟨⟨t2, ht2⟩, hnd, outs, hlen, hout, hall⟩ := ih s2 s1 h
        refine ⟨⟨t2, by rw [ht2, hp]⟩, fun hs => hnd (by rw [hp]; exact hs),
          [] :: outs, by simp [hlen], by rw [hout, ho]; simp, ?_⟩
        intro i w u hi
        cases i with
        | zero => simp at hi
        | succ i =>
          simp only [List.getElem?_cons_succ] at hi ⊢
          exact hall i w u hi
    | freeall =>
      simp only [runLoads] at h
      obtain ⟨⟨t2, ht2⟩, hnd, outs, hlen, hout, hall⟩ := ih (freeall_registers s) s1 h
      refine ⟨⟨t2, ht2⟩, hnd, [] :: outs, by simp [hlen], by rw [hout]; simp [freeall_registers],
        ?_⟩
      intro i w u hi
      cases i with
      | zero => simp at hi
      | succ i =>
        simp only [List.getElem?_cons_succ] at hi ⊢
        exact hall i w u hi

/-- Different values give different `.word` lines. -/
theorem wordInt_injective : Function.Injective Asm.wordInt := by
  intro a b h
  exact Asm.wordInt.inj h

/-- C11: for every successful sequence of literal loads in a unit whose pool
holds no value twice, `cgpostamble` prints the pool in slot order under `.L3`,
and for every load of a value above 1000 the `.L3` entry at position
`offset/4` of the offset its load referenced is that value, which occurs
exactly once under `.L3`.  In a fresh unit (empty pool, after `cgpreamble`),
`cgloadint(1000000, type)` prints `ldr r3, .L3+0` and the postamble then lists
1000000 once, at position 0; a second `cgloadint(1000000, type)` references
`.L3+0` again and the postamble still lists 1000000 once. -/
theorem C11_literal_loads_and_postamble (E : Env) (ops : List LoadOp) (s s1 : CG)
    (hunit : s.pool.Nodup) (hrun : runLoads ops s = Except.ok s1) :
    (cgpostamble E s1).Outfile =
      s1.Outfile ++ [Asm.labelL2] ++ (globalNames E).map Asm.wordSym ++ [Asm.labelL3] ++
        s1.pool.map Asm.wordInt ∧
    s1.pool.Nodup ∧
    (∃ outs : List (List Asm), outs.length = ops.length ∧
      s1.Outfile = s.Outfile ++ outs.flatten ∧
      ∀ (i : Nat) (v t : Int), ops[i]? = some (LoadOp.load v t) → 1000 < v →
        ∃ (r : Fin 4) (k : Nat),
          outs[i]? = some [Asm.ldrL3 (4 * (k : Int)), Asm.ldr (reglist r) Reg.r3] ∧
          (s1.pool.map Asm.wordInt)[k]? = some (Asm.wordInt v) ∧
          (s1.pool.map Asm.wordInt).count (Asm.wordInt v) = 1) ∧
    (∀ (s0 : CG) (t : Int), s0.Intslot = 0 →
      ∃ s2 s3 : CG,
        cgloadint 1000000 t (cgpreamble s0) = Except.ok (0, s2) ∧
        s2.Outfile = s0.Outfile ++ [Asm.text, Asm.ldrL3 0, Asm.ldr Reg.r4 Reg.r3] ∧
        (cgpostamble E s2).Outfile =
          s2.Outfile ++ [Asm.labelL2] ++ (globalNames E).map Asm.wordSym ++
            [Asm.labelL3, Asm.wordInt 1000000] ∧
        cgloadint 1000000 t s2 = Except.ok (1, s3) ∧
        s3.Outfile = s2.Outfile ++ [Asm.ldrL3 0, Asm.ldr Reg.r5 Reg.r3] ∧
        (cgpostamble E s3).Outfile =
          s3.Outfile ++ [Asm.labelL2] ++ (globalNames E).map Asm.wordSym ++
            [Asm.labelL3, Asm.wordInt 1000000]) := by
  obtain ⟨-, hnd, outs, hlen, hout, hall⟩ := runLoads_ok ops s s1 hrun
  have hnd1 := hnd hunit
  refine ⟨cgpostamble_Outfile E s1, hnd1, ⟨outs, hlen, hout, ?_⟩, ?_⟩
  · intro i v t hi hv
    obtain ⟨hm, r, ho⟩ := (hall i v t hi).2 hv
    refine ⟨r, List.indexOf v s1.pool, ho, ?_, ?_⟩
    · rw [List.getElem?_map]
      have := List.indexOf_get? hm
      rw [List.get?_eq_getElem?] at this
      rw [this]
      rfl
    · rw [List.count_map_of_injective _ _ wordInt_injective]
      exact List.count_eq_one_of_mem hnd1 hm
  · intro s0 t h0
    obtain ⟨fr, il, n, out⟩ := s0
    simp only at h0
    subst h0
    refine ⟨_, _, rfl, ?_, ?_, rfl, ?_, ?_⟩
    · simp [CG.emit, cgpreamble, freeall_registers, reglist]
    · rw [cgpostamble_Outfile]
      simp [CG.pool, CG.emit, cgpreamble, freeall_registers, List.range_succ]
    · simp [CG.emit, cgpreamble, freeall_registers, reglist, List.range_succ]
    · rw [cgpostamble_Outfile]
      simp [CG.pool, CG.emit, cgpreamble, freeall_registers, List.range_succ]

/-- C11 at a concrete input: loading 1000000, 5, 1000000, then releasing the
registers and loading 2000000, followed by the postamble on the sample table,
prints exactly these lines. -/
theorem C11_literal_loads_and_postamble_witness :
    ∃ s1 : CG,
      runLoads [LoadOp.load 1000000 3, LoadOp.load 5 3, LoadOp.load 1000000 3,
        LoadOp.freeall, LoadOp.load 2000000 3] (cgpreamble CG.init) = Except.ok s1 ∧
      s1.pool.Nodup ∧
      (cgpostamble sampleEnv s1).Outfile.map Asm.render =
        ["\t.text\n", "\tldr\tr3, .L3+0\n", "\tldr\tr4, [r3]\n", "\tmov\tr5, #5\n",
          "\tldr\tr3, .L3+0\n", "\tldr\tr6, [r3]\n", "\tldr\tr3, .L3+4\n",
          "\tldr\tr4, [r3]\n", ".L2:\n", "\t.word a\n", "\t.word b\n", "\t.word c\n",
          "\t.word d\n", "\t.word v\n", ".L3:\n", "\t.word 1000000\n",
          "\t.word 2000000\n"] := by
  have h := C11_literal_loads_and_postamble sampleEnv
    [LoadOp.load 1000000 3, LoadOp.load 5 3, LoadOp.load 1000000 3,
      LoadOp.freeall, LoadOp.load 2000000 3] (cgpreamble CG.init) _ (by decide) rfl
  exact ⟨_, rfl, h.2.1, by decide⟩

/-! ## Literal pool: capacity -/

/-- A value already in the pool: `set_int_offset` succeeds, whatever the size
of the pool, and prints four times the slot of the value. -/
theorem set_int_offset_of_mem (v : Int) (s : CG) (h : v ∈ s.pool) :
    set_int_offset v s = Except.ok (s.emit (Asm.ldrL3 (4 * (List.indexOf v s.pool : Int)))) := by
  cases hf : (List.range s.Intslot).find? (fun i => decide (s.Intlist i = v)) with
  | none =>
    exfalso
    have hnone := List.find?_range_eq_none.mp hf
    obtain ⟨i, hi, hv⟩ := (mem_pool s v).mp h
    have := hnone i hi
    simp [hv] at this
  | some i =>
    obtain ⟨hi, hmem, hfirst⟩ := List.find?_range_eq_some.mp hf
    have hi1 : s.Intlist i = v := by simpa using hi
    have hlt : i < s.Intslot := List.mem_range.mp hmem
    have hidx : List.indexOf v s.pool = i := by
      apply indexOf_eq_of_first
      · rw [pool_getElem? s i hlt, hi1]
      · intro j hj
        rw [pool_getElem? s j (by omega)]
        have := hfirst j hj
        simpa using this
    have hne : ¬ (4 * (i : Int) = -1) := by omega
    unfold set_int_offset
    rw [hf]
    simp only [hne, if_false, hidx]

/-- A value not in the pool: `set_int_offset` fails when the pool is full and
appends the value otherwise. -/
theorem set_int_offset_of_not_mem (v : Int) (s : CG) (h : v ∉ s.pool) :
    set_int_offset v s =
      if s.Intslot = MAXINTS then fatal "Out of int slots in set_int_offset()"
      else Except.ok (CG.emit
        { s with Intlist := Function.update s.Intlist s.Intslot v, Intslot := s.Intslot + 1 }
        (Asm.ldrL3 (4 * (s.Intslot : Int)))) := by
  have hf : (List.range s.Intslot).find? (fun i => decide (s.Intlist i = v)) = none := by
    rw [List.find?_range_eq_none]
    intro i hi
    have : s.Intlist i ≠ v := fun hv => h ((mem_pool s v).mpr ⟨i, hi, hv⟩)
    simp [this]
  unfold set_int_offset
  rw [hf]
  simp

/-- The sample full pool holds no value below 2000. -/
theorem fullPool_not_mem (v : Int) (h : v < 2000) : v ∉ fullPool.pool := by
  rw [mem_pool]
  rintro ⟨i, -, hv⟩
  simp only [fullPool] at hv
  omega

/-- C12 (amended): with a free register, `cgloadint` takes the register `r`
that `alloc_register` returns; for a value of at most 1000 it succeeds,
returns `r`, prints `mov reg, #value` and leaves the pool unchanged; for a
value above 1000 that is in the pool or finds the pool below its capacity it
succeeds, returns `r` and prints the offset line of `set_int_offset` followed
by `ldr reg, [r3]`, with `r` as the only register newly owned; for a value
above 1000 that is not in a full pool it fails with the capacity error. -/
theorem C12_cgloadint (value type : Int) (s : CG) (hfree : ∃ i, s.isFree i) :
    ∃ (r : Fin 4) (sa : CG),
      alloc_register s = Except.ok (r, sa) ∧ s.isFree r ∧
      sa = { s with freereg := Function.update s.freereg r 0 } ∧
      (value ≤ 1000 →
        cgloadint value type s =
          Except.ok (r, sa.emit (Asm.movImm (reglist r) value)) ∧
        (sa.emit (Asm.movImm (reglist r) value)).pool = s.pool ∧
        (sa.emit (Asm.movImm (reglist r) value)).Outfile =
          s.Outfile ++ [Asm.movImm (reglist r) value]) ∧
      (1000 < value → (value ∈ s.pool ∨ s.Intslot < MAXINTS) →
        ∃ s2 : CG, set_int_offset value sa = Except.ok s2 ∧
          cgloadint value type s = Except.ok (r, s2.emit (Asm.ldr (reglist r) Reg.r3)) ∧
          (s2.emit (Asm.ldr (reglist r) Reg.r3)).Outfile =
            s.Outfile ++ [Asm.ldrL3 (4 * (List.indexOf value s2.pool : Int)),
              Asm.ldr (reglist r) Reg.r3] ∧
          s2.freereg = Function.update s.freereg r 0) ∧
      (1000 < value → value ∉ s.pool → s.Intslot = MAXINTS →
        cgloadint value type s = fatal "Out of int slots in set_int_offset()") := by
  obtain ⟨r, sa, ha⟩ := alloc_register_of_free s hfree
  obtain ⟨hr, hsa⟩ := alloc_register_ok s r sa ha
  have hpool : sa.pool = s.pool := by rw [hsa]; rfl
  have hslot : sa.Intslot = s.Intslot := by rw [hsa]
  have hout : sa.Outfile = s.Outfile := by rw [hsa]
  have hfr : sa.freereg = Function.update s.freereg r 0 := by rw [hsa]
  refine ⟨r, sa, ha, hr, hsa, ?_, ?_, ?_⟩
  · intro hv
    refine ⟨by simp [cgloadint, ha, hv], hpool, by simp [CG.emit, hout]⟩
  · intro hv hroom
    have hnv : ¬ value ≤ 1000 := by omega
    have hok : ∃ s2, set_int_offset value sa = Except.ok s2 := by
      by_cases hmem : value ∈ sa.pool
      · exact ⟨_, set_int_offset_of_mem value sa hmem⟩
      · have hlt : sa.Intslot ≠ MAXINTS := by
          rcases hroom with h | h
          · exact absurd (hpool ▸ h) hmem
          · omega
        rw [set_int_offset_of_not_mem value sa hmem, if_neg hlt]
        exact ⟨_, rfl⟩
    obtain ⟨s2, hs2⟩ := hok
    obtain ⟨-, -, ho2, hf2⟩ := set_int_offset_ok value sa s2 hs2
    refine ⟨s2, hs2, by simp [cgloadint, ha, hnv, hs2], ?_, by rw [hf2, hfr]⟩
    simp [CG.emit, ho2, hout]
  · intro hv hnot hfull
    have hnv : ¬ value ≤ 1000 := by omega
    have hnot1 : value ∉ sa.pool := by rw [hpool]; exact hnot
    have hfull1 : sa.Intslot = MAXINTS := by rw [hslot]; exact hfull
    have hs := set_int_offset_of_not_mem value sa hnot1
    rw [if_pos hfull1] at hs
    simp [cgloadint, ha, hnv, hs, fatal]

/-- C12 at concrete inputs: 1000 and -7 are loaded with `mov`, 1001 through the
pool. -/
theorem C12_cgloadint_witness :
    (∃ s1 : CG, cgloadint 1000 0 (freeall_registers CG.init) = Except.ok (0, s1) ∧
      s1.Outfile.map Asm.render = ["\tmov\tr4, #1000\n"] ∧ s1.pool = []) ∧
    (∃ s1 : CG, cgloadint (-7) 0 (freeall_registers CG.init) = Except.ok (0, s1) ∧
      s1.Outfile.map Asm.render = ["\tmov\tr4, #-7\n"] ∧ s1.pool = []) ∧
    (∃ s1 : CG, cgloadint 1001 0 (freeall_registers CG.init) = Except.ok (0, s1) ∧
      s1.Outfile.map Asm.render = ["\tldr\tr3, .L3+0\n", "\tldr\tr4, [r3]\n"] ∧
      s1.pool = [1001]) := by
  obtain ⟨r, sa, ha, -, -, hsmall, -, -⟩ :=
    C12_cgloadint 1000 0 (freeall_registers CG.init) ⟨0, by decide⟩
  have hr : r = 0 := by
    have h0 : alloc_register (freeall_registers CG.init) =
        Except.ok (0, { freeall_registers CG.init with
          freereg := Function.update (freeall_registers CG.init).freereg 0 0 }) := rfl
    rw [h0] at ha
    simp only [Except.ok.injEq, Prod.mk.injEq] at ha
    exact ha.1.symm
  subst hr
  exact ⟨⟨_, (hsmall (by decide)).1, by rw [(hsmall (by decide)).2.2]; decide,
      (hsmall (by decide)).2.1⟩,
    ⟨_, rfl, by decide, rfl⟩, ⟨_, rfl, by decide, rfl⟩⟩

/-- C12 as stated fails on a full pool: with all four registers free and the
1024 slots holding 2000 to 3023, `cgloadint(1001, 0)` returns no register; it
fails with "Out of int slots in set_int_offset()". -/
theorem C12_counterexample :
    (∃ i, fullPool.isFree i) ∧
    cgloadint 1001 0 fullPool = fatal "Out of int slots in set_int_offset()" ∧
    ¬ ∃ (r : Fin 4) (s1 : CG), cgloadint 1001 0 fullPool = Except.ok (r, s1) := by
  have hs : set_int_offset 1001 { fullPool with freereg := Function.update fullPool.freereg 0 0 }
      = fatal "Out of int slots in set_int_offset()" := by
    have hnot : (1001 : Int) ∉
        CG.pool { fullPool with freereg := Function.update fullPool.freereg 0 0 } :=
      fullPool_not_mem 1001 (by decide)
    rw [set_int_offset_of_not_mem _ _ hnot]
    exact if_pos rfl
  have ha : alloc_register fullPool =
      Except.ok (0, { fullPool with freereg := Function.update fullPool.freereg 0 0 }) := rfl
  have hc : cgloadint 1001 0 fullPool = fatal "Out of int slots in set_int_offset()" := by
    simp [cgloadint, ha, hs, fatal]
  refine ⟨⟨0, by decide⟩, hc, ?_⟩
  rintro ⟨r, s1, h⟩
  rw [hc] at h
  simp [fatal] at h

/-! ## Comparisons: the operator range check -/

/-- A table read gives an entry or is out of bounds. -/
theorem tableAt_cases (table : List Cond) (i : Int) :
    (∃ c, tableAt table i = Except.ok c) ∨ tableAt table i = Except.error Fatal.undefined := by
  unfold tableAt
  split
  · exact Or.inr rfl
  · split
    · exact Or.inl ⟨_, rfl⟩
    · exact Or.inr rfl

/-- `free_register` succeeds or fails with its own error. -/
theorem free_register_cases (r : Fin 4) (s : CG) :
    (∃ s1, free_register r s = Except.ok s1) ∨
    free_register r s = fatald "Error trying to free register" (r.val : Int) := by
  unfold free_register
  split
  · exact Or.inr rfl
  · exact Or.inl ⟨_, rfl⟩

/-- Dropping the state of a failure of `free_register_at` gives
`free_register`. -/
theorem free_register_at_erase (r : Fin 4) (s : CG) :
    (free_register_at r s).mapError Prod.fst = free_register r s := by
  unfold free_register_at free_register
  split <;> rfl

/-- `free_register_at` and `free_register` succeed together, with the same
state, or fail together, the first at the state of the call. -/
theorem free_register_at_cases (r : Fin 4) (s : CG) :
    (∃ s1, free_register_at r s = Except.ok s1 ∧ free_register r s = Except.ok s1) ∨
    (free_register_at r s =
        Except.error (Fatal.fatald "Error trying to free register" (r.val : Int), s) ∧
      free_register r s = fatald "Error trying to free register" (r.val : Int)) := by
  unfold free_register_at free_register
  split
  · exact Or.inr ⟨rfl, rfl⟩
  · exact Or.inl ⟨_, rfl, rfl⟩

/-- Dropping the state of a failure of `cgcompare_and_set_at` gives
`cgcompare_and_set`. -/
theorem cgcompare_and_set_at_erase (D : Defs) (op : Int) (r1 r2 : Fin 4) (s : CG) :
    (cgcompare_and_set_at D op r1 r2 s).mapError Prod.fst = cgcompare_and_set D op r1 r2 s := by
  unfold cgcompare_and_set_at cgcompare_and_set
  split
  · rfl
  · simp only
    rcases tableAt_cases cmplist (op - D.A_EQ) with ⟨c, hc⟩ | hc
    · rw [hc]
      rcases tableAt_cases invcmplist (op - D.A_EQ) with ⟨ic, hic⟩ | hic
      · rw [hic]
        simp only
        rcases free_register_at_cases r1 (CG.emit (CG.emit (CG.emit (CG.emit s
            (Asm.cmp (reglist r1) (reglist r2))) (Asm.movCond c (reglist r2) 1))
            (Asm.movCond ic (reglist r2) 0)) (Asm.uxtb (reglist r2) (reglist r2)))
          with ⟨s1, h1, h2⟩ | ⟨h1, h2⟩
        · rw [h1, h2]; rfl
        · rw [h1, h2]; rfl
      · rw [hic]; rfl
    · rw [hc]; rfl

/-- Dropping the state of a failure of `cgcompare_and_jump_at` gives
`cgcompare_and_jump`. -/
theorem cgcompare_and_jump_at_erase (D : Defs) (op : Int) (r1 r2 : Fin 4) (label : Int)
    (s : CG) :
    (cgcompare_and_jump_at D op r1 r2 label s).mapError Prod.fst =
      cgcompare_and_jump D op r1 r2 label s := by
  unfold cgcompare_and_jump_at cgcompare_and_jump
  split
  · rfl
  · simp only
    rcases tableAt_cases brlist (op - D.A_EQ) with ⟨c, hc⟩ | hc
    · rw [hc]; rfl
    · rw [hc]; rfl

/-- In range, a failure of `cgcompare_and_set_at` is not the operator error and
comes after the `cmp` line. -/
theorem cgcompare_and_set_at_error (D : Defs) (op : Int) (r1 r2 : Fin 4) (s : CG)
    (hlo : D.A_EQ ≤ op) (hhi : op ≤ D.A_GE) (e : Fatal) (s1 : CG)
    (h : cgcompare_and_set_at D op r1 r2 s = Except.error (e, s1)) :
    e ≠ Fatal.fatal "Bad ASTop in cgcompare_and_set()" ∧
    ∃ rest, s1.Outfile = s.Outfile ++ Asm.cmp (reglist r1) (reglist r2) :: rest := by
  have hrange : ¬ (op < D.A_EQ ∨ op > D.A_GE) := by omega
  simp only [cgcompare_and_set_at, if_neg hrange] at h
  rcases tableAt_cases cmplist (op - D.A_EQ) with ⟨c, hc⟩ | hc
  · rw [hc] at h
    rcases tableAt_cases invcmplist (op - D.A_EQ) with ⟨ic, hic⟩ | hic
    · rw [hic] at h
      simp only at h
      rcases free_register_at_cases r1 (CG.emit (CG.emit (CG.emit (CG.emit s
          (Asm.cmp (reglist r1) (reglist r2))) (Asm.movCond c (reglist r2) 1))
          (Asm.movCond ic (reglist r2) 0)) (Asm.uxtb (reglist r2) (reglist r2)))
        with ⟨s2, h1, -⟩ | ⟨h1, -⟩
      · rw [h1] at h; simp at h
      · rw [h1] at h
        simp only [Except.error.injEq, Prod.mk.injEq] at h
        obtain ⟨rfl, rfl⟩ := h
        exact ⟨by simp, ⟨_, by simp [CG.emit]; rfl⟩⟩
    · rw [hic] at h
      simp only [Except.error.injEq, Prod.mk.injEq] at h
      obtain ⟨rfl, rfl⟩ := h
      exact ⟨by simp, ⟨_, by simp [CG.emit]; rfl⟩⟩
  · rw [hc] at h
    simp only [Except.error.injEq, Prod.mk.injEq] at h
    obtain ⟨rfl, rfl⟩ := h
    exact ⟨by simp, ⟨[], by simp [CG.emit]⟩⟩

/-- In range, a failure of `cgcompare_and_jump_at` is not the operator error
and comes after the `cmp` line. -/
theorem cgcompare_and_jump_at_error (D : Defs) (op : Int) (r1 r2 : Fin 4) (label : Int)
    (s : CG) (hlo : D.A_EQ ≤ op) (hhi : op ≤ D.A_GE) (e : Fatal) (s1 : CG)
    (h : cgcompare_and_jump_at D op r1 r2 label s = Except.error (e, s1)) :
    e ≠ Fatal.fatal "Bad ASTop in cgcompare_and_set()" ∧
    ∃ rest, s1.Outfile = s.Outfile ++ Asm.cmp (reglist r1) (reglist r2) :: rest := by
  have hrange : ¬ (op < D.A_EQ ∨ op > D.A_GE) := by omega
  simp only [cgcompare_and_jump_at, if_neg hrange] at h
  rcases tableAt_cases brlist (op - D.A_EQ) with ⟨c, hc⟩ | hc
  · rw [hc] at h; simp at h
  · rw [hc] at h
    simp only [Except.error.injEq, Prod.mk.injEq] at h
    obtain ⟨rfl, rfl⟩ := h
    exact ⟨by simp, ⟨[], by simp [CG.emit]⟩⟩

/-- C14: `cgcompare_and_set` and `cgcompare_and_jump` check the operator before
doing anything else.  For every operator outside `A_EQ..A_GE`, every state and
every pair of handles, both stop with "Bad ASTop in cgcompare_and_set()" at
the very state they were called in: no line has been printed and the register
file (and the pool) is unchanged; they never return.  For every operator
inside the range neither fails with that error, and whatever failure there is
comes after the `cmp` line; with the six operators consecutive the index
`ASTop - A_EQ` is inside the three six-entry tables and `cgcompare_and_jump`
succeeds.  The versions that keep the state on failure agree with
`cgcompare_and_set` and `cgcompare_and_jump` once that state is dropped. -/
theorem C14_operator_range_check (D : Defs) (op : Int) (r1 r2 : Fin 4) (label : Int)
    (s : CG) :
    ((cgcompare_and_set_at D op r1 r2 s).mapError Prod.fst = cgcompare_and_set D op r1 r2 s ∧
      (cgcompare_and_jump_at D op r1 r2 label s).mapError Prod.fst =
        cgcompare_and_jump D op r1 r2 label s) ∧
    ((op < D.A_EQ ∨ D.A_GE < op) →
      cgcompare_and_set_at D op r1 r2 s =
        Except.error (Fatal.fatal "Bad ASTop in cgcompare_and_set()", s) ∧
      cgcompare_and_jump_at D op r1 r2 label s =
        Except.error (Fatal.fatal "Bad ASTop in cgcompare_and_set()", s) ∧
      (∀ (e : Fatal) (s1 : CG), cgcompare_and_set_at D op r1 r2 s = Except.error (e, s1) →
        e = Fatal.fatal "Bad ASTop in cgcompare_and_set()" ∧ s1.Outfile = s.Outfile ∧
        s1.freereg = s.freereg ∧ s1.Intlist = s.Intlist ∧ s1.Intslot = s.Intslot) ∧
      (∀ (e : Fatal) (s1 : CG),
        cgcompare_and_jump_at D op r1 r2 label s = Except.error (e, s1) →
        e = Fatal.fatal "Bad ASTop in cgcompare_and_set()" ∧ s1.Outfile = s.Outfile ∧
        s1.freereg = s.freereg ∧ s1.Intlist = s.Intlist ∧ s1.Intslot = s.Intslot) ∧
      (∀ p : Fin 4 × CG, cgcompare_and_set_at D op r1 r2 s ≠ Except.ok p) ∧
      (∀ p : Int × CG, cgcompare_and_jump_at D op r1 r2 label s ≠ Except.ok p) ∧
      cgcompare_and_set D op r1 r2 s = fatal "Bad ASTop in cgcompare_and_set()" ∧
      cgcompare_and_jump D op r1 r2 label s = fatal "Bad ASTop in cgcompare_and_set()") ∧
    (D.A_EQ ≤ op → op ≤ D.A_GE →
      cgcompare_and_set D op r1 r2 s ≠ fatal "Bad ASTop in cgcompare_and_set()" ∧
      cgcompare_and_jump D op r1 r2 label s ≠ fatal "Bad ASTop in cgcompare_and_set()" ∧
      (∀ (e : Fatal) (s1 : CG), cgcompare_and_set_at D op r1 r2 s = Except.error (e, s1) →
        e ≠ Fatal.fatal "Bad ASTop in cgcompare_and_set()" ∧
        ∃ rest, s1.Outfile = s.Outfile ++ Asm.cmp (reglist r1) (reglist r2) :: rest) ∧
      (∀ (e : Fatal) (s1 : CG),
        cgcompare_and_jump_at D op r1 r2 label s = Except.error (e, s1) →
        e ≠ Fatal.fatal "Bad ASTop in cgcompare_and_set()" ∧
        ∃ rest, s1.Outfile = s.Outfile ++ Asm.cmp (reglist r1) (reglist r2) :: rest) ∧
      (D.RelContiguous →
        0 ≤ op - D.A_EQ ∧ (op - D.A_EQ).toNat < cmplist.length ∧
        (op - D.A_EQ).toNat < invcmplist.length ∧ (op - D.A_EQ).toNat < brlist.length ∧
        cmplist.length = 6 ∧ invcmplist.length = 6 ∧ brlist.length = 6 ∧
        (∃ c ic bc, tableAt cmplist (op - D.A_EQ) = Except.ok c ∧
          tableAt invcmplist (op - D.A_EQ) = Except.ok ic ∧
          tableAt brlist (op - D.A_EQ) = Except.ok bc) ∧
        ∃ s1, cgcompare_and_jump D op r1 r2 label s = Except.ok (D.NOREG, s1))) := by
  refine ⟨⟨cgcompare_and_set_at_erase D op r1 r2 s,
    cgcompare_and_jump_at_erase D op r1 r2 label s⟩, ?_, ?_⟩
  · intro h
    have h1 : op < D.A_EQ ∨ op > D.A_GE := h
    have hs : cgcompare_and_set_at D op r1 r2 s =
        Except.error (Fatal.fatal "Bad ASTop in cgcompare_and_set()", s) := by
      simp only [cgcompare_and_set_at, if_pos h1]
    have hj : cgcompare_and_jump_at D op r1 r2 label s =
        Except.error (Fatal.fatal "Bad ASTop in cgcompare_and_set()", s) := by
      simp only [cgcompare_and_jump_at, if_pos h1]
    refine ⟨hs, hj, ?_, ?_, ?_, ?_, by simp only [cgcompare_and_set, if_pos h1],
      by simp only [cgcompare_and_jump, if_pos h1]⟩
    · intro e s1 he
      rw [hs] at he
      simp only [Except.error.injEq, Prod.mk.injEq] at he
      obtain ⟨rfl, rfl⟩ := he
      exact ⟨rfl, rfl, rfl, rfl, rfl⟩
    · intro e s1 he
      rw [hj] at he
      simp only [Except.error.injEq, Prod.mk.injEq] at he
      obtain ⟨rfl, rfl⟩ := he
      exact ⟨rfl, rfl, rfl, rfl, rfl⟩
    · intro p hp
      rw [hs] at hp
      simp at hp
    · intro p hp
      rw [hj] at hp
      simp at hp
  · intro hlo hhi
    have hrange : ¬ (op < D.A_EQ ∨ op > D.A_GE) := by omega
    refine ⟨?_, ?_, fun e s1 => cgcompare_and_set_at_error D op r1 r2 s hlo hhi e s1,
      fun e s1 => cgcompare_and_jump_at_error D op r1 r2 label s hlo hhi e s1, ?_⟩
    · simp only [cgcompare_and_set, if_neg hrange]
      rcases tableAt_cases cmplist (op - D.A_EQ) with ⟨c, hc⟩ | hc
      · rw [hc]
        rcases tableAt_cases invcmplist (op - D.A_EQ) with ⟨ic, hic⟩ | hic
        · rw [hic]
          simp only
          rcases free_register_cases r1 (CG.emit (CG.emit (CG.emit (CG.emit s
              (Asm.cmp (reglist r1) (reglist r2))) (Asm.movCond c (reglist r2) 1))
              (Asm.movCond ic (reglist r2) 0)) (Asm.uxtb (reglist r2) (reglist r2)))
            with ⟨s1, hf⟩ | hf
          · rw [hf]; simp [fatal]
          · rw [hf]; simp [fatal, fatald]
        · rw [hic]; simp [fatal]
      · rw [hc]; simp [fatal]
    · simp only [cgcompare_and_jump, if_neg hrange]
      rcases tableAt_cases brlist (op - D.A_EQ) with ⟨c, hc⟩ | hc
      · rw [hc]; simp [fatal]
      · rw [hc]; simp [fatal]
    · intro hD
      obtain ⟨c, ic, bc, hc, hic, hbc, -, -, -⟩ := rel_tables D hD op hlo hhi
      obtain ⟨h1, h2, h3, h4, h5⟩ := hD
      have hidx : (op - D.A_EQ).toNat < 6 := by omega
      refine ⟨by omega, hidx, hidx, hidx, rfl, rfl, rfl, ⟨c, ic, bc, hc, hic, hbc⟩, ?_⟩
      simp only [cgcompare_and_jump, if_neg hrange, hbc]
      exact ⟨_, rfl⟩

/-- C14 at concrete inputs: after the preamble the operators 4 and 11 are
refused with the state untouched; operator 10 is not refused, and with `r1`
free `cgcompare_and_set` then stops at the double-free error after printing
its four lines. -/
theorem C14_operator_range_check_witness :
    cgcompare_and_set_at sampleDefs 4 0 1 (cgpreamble CG.init) =
      Except.error (Fatal.fatal "Bad ASTop in cgcompare_and_set()", cgpreamble CG.init) ∧
    cgcompare_and_jump_at sampleDefs 11 0 1 7 (cgpreamble CG.init) =
      Except.error (Fatal.fatal "Bad ASTop in cgcompare_and_set()", cgpreamble CG.init) ∧
    cgcompare_and_set sampleDefs 4 0 1 CG.init = fatal "Bad ASTop in cgcompare_and_set()" ∧
    cgcompare_and_jump sampleDefs 11 0 1 7 CG.init =
      fatal "Bad ASTop in cgcompare_and_set()" ∧
    cgcompare_and_set sampleDefs 10 0 1 (freeall_registers CG.init) ≠
      fatal "Bad ASTop in cgcompare_and_set()" ∧
    (∃ s1 : CG, cgcompare_and_set_at sampleDefs 10 0 1 (freeall_registers CG.init) =
        Except.error (Fatal.fatald "Error trying to free register" 0, s1) ∧
      s1.Outfile.map Asm.render =
        ["\tcmp\tr4, r5\n", "\tmovge\tr5, #1\n", "\tmovlt\tr5, #0\n", "\tuxtb\tr5, r5\n"]) :=
  ⟨((C14_operator_range_check sampleDefs 4 0 1 7 (cgpreamble CG.init)).2.1
      (Or.inl (by decide))).1,
    ((C14_operator_range_check sampleDefs 11 0 1 7 (cgpreamble CG.init)).2.1
      (Or.inr (by decide))).2.1,
    ((C14_operator_range_check sampleDefs 4 0 1 7 CG.init).2.1
      (Or.inl (by decide))).2.2.2.2.2.2.1,
    ((C14_operator_range_check sampleDefs 11 0 1 7 CG.init).2.1
      (Or.inr (by decide))).2.2.2.2.2.2.2,
    ((C14_operator_range_check sampleDefs 10 0 1 7 (freeall_registers CG.init)).2.2
      (by decide) (by decide)).1,
    ⟨_, rfl, by decide⟩⟩

/-! ## Pointers and addresses -/

/-- The six type constants are pairwise different. -/
theorem typesDistinct_ne (D : Defs) (hD : D.TypesDistinct) :
    D.P_CHAR ≠ D.P_INT ∧ D.P_CHAR ≠ D.P_LONG ∧ D.P_CHAR ≠ D.P_CHARPTR ∧
    D.P_CHAR ≠ D.P_INTPTR ∧ D.P_CHAR ≠ D.P_LONGPTR ∧ D.P_INT ≠ D.P_LONG ∧
    D.P_INT ≠ D.P_CHARPTR ∧ D.P_INT ≠ D.P_INTPTR ∧ D.P_INT ≠ D.P_LONGPTR ∧
    D.P_LONG ≠ D.P_CHARPTR ∧ D.P_LONG ≠ D.P_INTPTR ∧ D.P_LONG ≠ D.P_LONGPTR ∧
    D.P_CHARPTR ≠ D.P_INTPTR ∧ D.P_CHARPTR ≠ D.P_LONGPTR ∧ D.P_INTPTR ≠ D.P_LONGPTR := by
  unfold Defs.TypesDistinct at hD
  simp only [List.nodup_cons, List.mem_cons, List.mem_singleton, not_or, List.not_mem_nil,
    not_false_eq_true, List.nodup_nil, and_true] at hD
  obtain ⟨⟨a1, a2, a3, a4, a5⟩, ⟨b1, b2, b3, b4⟩, ⟨c1, c2, c3⟩, ⟨d1, d2⟩, e1⟩ := hD
  exact ⟨a1, a2, a3, a4, a5, b1, b2, b3, b4, c1, c2, c3, d1, d2, e1⟩

/-- C15 (amended): `cgderef` and `cgstorderef` address memory through a
register and dispatch on the type argument with tables of their own:
`cgderef` prints a byte-width load `ldrb r, [r]` for `P_CHARPTR` and a
word-width load `ldr r, [r]` for `P_INTPTR` and `P_LONGPTR`; `cgstorderef`
prints a byte-width store `strb r1, [r2]` for `P_CHAR`, a word-width store
`str r1, [r2]` for `P_INT` and `P_LONG`, and fails with "Can't cgstoderef on
type:" for every other type, the three pointer types included. -/
theorem C15_deref_dispatch (D : Defs) (hD : D.TypesDistinct) (r r1 r2 : Fin 4) (type : Int)
    (s : CG) :
    (type = D.P_CHARPTR →
      cgderef D r type s = (r, s.emit (Asm.ldrb (reglist r) (reglist r)))) ∧
    ((type = D.P_INTPTR ∨ type = D.P_LONGPTR) →
      cgderef D r type s = (r, s.emit (Asm.ldr (reglist r) (reglist r)))) ∧
    (type = D.P_CHAR →
      cgstorderef D r1 r2 type s =
        Except.ok (r1, s.emit (Asm.strb (reglist r1) (reglist r2)))) ∧
    ((type = D.P_INT ∨ type = D.P_LONG) →
      cgstorderef D r1 r2 type s =
        Except.ok (r1, s.emit (Asm.str (reglist r1) (reglist r2)))) ∧
    ((type ≠ D.P_CHAR ∧ type ≠ D.P_INT ∧ type ≠ D.P_LONG) →
      cgstorderef D r1 r2 type s = fatald "Can't cgstoderef on type:" type) ∧
    ((type = D.P_CHARPTR ∨ type = D.P_INTPTR ∨ type = D.P_LONGPTR) →
      cgstorderef D r1 r2 type s = fatald "Can't cgstoderef on type:" type) := by
  obtain ⟨a1, a2, a3, a4, a5, b1, b2, b3, b4, c1, c2, c3, d1, d2, e1⟩ :=
    typesDistinct_ne D hD
  have hbad : (type ≠ D.P_CHAR ∧ type ≠ D.P_INT ∧ type ≠ D.P_LONG) →
      cgstorderef D r1 r2 type s = fatald "Can't cgstoderef on type:" type := by
    rintro ⟨h1, h2, h3⟩
    simp [cgstorderef, h1, h2, h3]
  refine ⟨?_, ?_, ?_, ?_, hbad, ?_⟩
  · intro h
    simp [cgderef, h]
  · intro h
    have hne : type ≠ D.P_CHARPTR := by
      rcases h with h | h <;> rw [h]
      · exact Ne.symm d1
      · exact Ne.symm d2
    simp [cgderef, hne, h]
  · intro h
    simp [cgstorderef, h]
  · intro h
    have hne : type ≠ D.P_CHAR := by
      rcases h with h | h <;> rw [h]
      · exact Ne.symm a1
      · exact Ne.symm a2
    simp [cgstorderef, hne, h]
  · intro h
    apply hbad
    rcases h with h | h | h <;> rw [h]
    · exact ⟨Ne.symm a3, Ne.symm b2, Ne.symm c1⟩
    · exact ⟨Ne.symm a4, Ne.symm b3, Ne.symm c2⟩
    · exact ⟨Ne.symm a5, Ne.symm b4, Ne.symm c3⟩

/-- C15 at concrete inputs: dereferencing a char pointer in `r4` prints `ldrb
r4, [r4]`; storing the char in `r4` through `r5` prints `strb r4, [r5]`. -/
theorem C15_deref_dispatch_witness :
    cgderef sampleDefs 0 6 CG.init = (0, CG.init.emit (Asm.ldrb Reg.r4 Reg.r4)) ∧
    cgstorderef sampleDefs 0 1 2 CG.init =
      Except.ok (0, CG.init.emit (Asm.strb Reg.r4 Reg.r5)) ∧
    [Asm.ldrb Reg.r4 Reg.r4, Asm.strb Reg.r4 Reg.r5].map Asm.render =
      ["\tldrb\tr4, [r4]\n", "\tstrb\tr4, [r5]\n"] :=
  ⟨(C15_deref_dispatch sampleDefs (by decide) 0 0 1 6 CG.init).1 rfl,
    (C15_deref_dispatch sampleDefs (by decide) 0 0 1 2 CG.init).2.2.1 rfl, by decide⟩

/-- C15 as stated fails on the pointer types: for the int-pointer type 7,
`cgstorglob` prints a word-width `str` while `cgstorderef` fails with its
bad-type error; for the char-pointer type 6, `cgderef` prints the byte-width
`ldrb`, not a word-width load. -/
theorem C15_counterexample :
    sampleDefs.P_CHARPTR = 6 ∧ sampleDefs.P_INTPTR = 7 ∧
    (sampleEnv.Symtable 4).type = 7 ∧
    cgstorglob sampleEnv 0 4 CG.init =
      Except.ok (0, (set_var_offset sampleEnv 4 CG.init).emit (Asm.str Reg.r4 Reg.r3)) ∧
    cgstorderef sampleDefs 0 1 7 CG.init = fatald "Can't cgstoderef on type:" 7 ∧
    cgderef sampleDefs 0 6 CG.init = (0, CG.init.emit (Asm.ldrb Reg.r4 Reg.r4)) :=
  ⟨rfl, rfl, rfl, rfl, rfl, rfl⟩

/-- C16 (amended): when the type of the symbol is none of the six recognised
types, `cgstorglob` fails with its bad-type error, and `cgloadglob` does so
whenever `alloc_register` succeeds, which it does when a register is free.
`cgaddress` does not read the type: whenever `alloc_register` succeeds it
succeeds too, for every type, and prints the offset line and `mov reg, r3`.
With every register owned `cgloadglob` and `cgaddress` fail with "Out of
registers". -/
theorem C16_bad_type_errors (E : Env) (id : Nat) (r : Fin 4) (s : CG) :
    (E.D.badType (E.Symtable id).type →
      cgstorglob E r id s = fatald "Bad type in cgstorglob:" (E.Symtable id).type ∧
      ∀ q sa, alloc_register s = Except.ok (q, sa) →
        cgloadglob E id s = fatald "Bad type in cgloadglob:" (E.Symtable id).type) ∧
    (∀ q sa, alloc_register s = Except.ok (q, sa) →
      cgaddress E id s =
        Except.ok (q, (set_var_offset E id sa).emit (Asm.mov (reglist q) Reg.r3))) ∧
    ((∃ i, s.isFree i) → ∃ q sa, alloc_register s = Except.ok (q, sa)) ∧
    ((∀ i, s.isOwned i) →
      cgloadglob E id s = fatal "Out of registers" ∧
      cgaddress E id s = fatal "Out of registers") := by
  refine ⟨?_, ?_, alloc_register_of_free s, ?_⟩
  · rintro ⟨h1, h2, h3, h4, h5, h6⟩
    refine ⟨by simp [cgstorglob, h1, h2, h3, h4, h5, h6], ?_⟩
    intro q sa ha
    simp [cgloadglob, ha, h1, h2, h3, h4, h5, h6]
  · intro q sa ha
    simp [cgaddress, ha]
  · intro h
    have ha := alloc_register_of_owned s h
    exact ⟨by simp [cgloadglob, ha, fatal], by simp [cgaddress, ha, fatal]⟩

/-- C16 on the sample table: storing to and loading from `v`, of type 1, fail
with the bad-type errors. -/
theorem C16_bad_type_errors_witness :
    cgstorglob sampleEnv 2 5 CG.init = fatald "Bad type in cgstorglob:" 1 ∧
    cgloadglob sampleEnv 5 (freeall_registers CG.init) = fatald "Bad type in cgloadglob:" 1 :=
  ⟨((C16_bad_type_errors sampleEnv 5 2 CG.init).1 (by decide)).1,
    ((C16_bad_type_errors sampleEnv 5 2 (freeall_registers CG.init)).1 (by decide)).2 0 _ rfl⟩

/-- C16 as stated fails for `cgaddress`: the type of `v` is none of the six
recognised types, and `cgaddress` of `v` succeeds, returning handle 0 and
printing `ldr r3, .L2+16` and `mov r4, r3`. -/
theorem C16_counterexample :
    sampleEnv.D.badType (sampleEnv.Symtable 5).type ∧
    ∃ s1 : CG, cgaddress sampleEnv 5 (freeall_registers CG.init) = Except.ok (0, s1) ∧
      s1.Outfile = [Asm.ldrL2 16, Asm.mov Reg.r4 Reg.r3] :=
  ⟨by decide, _, rfl, rfl⟩

/-! ## Global symbol declaration -/

/-- C17: with a `ptrtype` that is true on the pointer types and false on
`P_CHAR`, for every symbol `id`, `cgglobsym` prints `.data`, `.globl name` and
then `name: .byte 0` when the type is `P_CHAR` and `name: .long 0` when it is
`P_INT`, `P_LONG` or a pointer type; whenever `cgprimsize` returns a width,
`cgglobsym` is the `switch` on that width, and the `switch` fails with
"Unknown typesize in cgglobsym: " for every width other than 1 and 4. -/
theorem C17_cgglobsym_width (ptrtype : Int → Bool) (E : Env) (hD : E.D.TypesDistinct)
    (hp : E.D.PtrtypeOk ptrtype) (id : Nat) (s : CG) :
    ((E.Symtable id).type = E.D.P_CHAR →
      cgglobsym ptrtype E id s =
        Except.ok ((s.emit (Asm.dataGlobl (E.Symtable id).name)).emit
          (Asm.byteZero (E.Symtable id).name))) ∧
    (E.D.wordType (E.Symtable id).type →
      cgglobsym ptrtype E id s =
        Except.ok ((s.emit (Asm.dataGlobl (E.Symtable id).name)).emit
          (Asm.longZero (E.Symtable id).name))) ∧
    (∀ typesize : Int, cgprimsize E.D ptrtype (E.Symtable id).type = Except.ok typesize →
      cgglobsym ptrtype E id s =
        cgglobsym_switch (E.Symtable id).name typesize
          (s.emit (Asm.dataGlobl (E.Symtable id).name))) ∧
    (∀ (name : String) (typesize : Int) (s2 : CG), typesize ≠ 1 → typesize ≠ 4 →
      cgglobsym_switch name typesize s2 =
        fatald "Unknown typesize in cgglobsym: " typesize) := by
  obtain ⟨p1, p2, p3, p4⟩ := hp
  refine ⟨?_, ?_, ?_, ?_⟩
  · intro h
    simp [cgglobsym, cgprimsize, cgglobsym_switch, h, p1]
  · intro h
    have hne := wordType_ne_char E.D hD _ h
    have hsize : cgprimsize E.D ptrtype (E.Symtable id).type = Except.ok 4 := by
      unfold cgprimsize
      by_cases hpt : ptrtype (E.Symtable id).type = true
      · simp [hpt]
      · unfold Defs.wordType at h
        rcases h with h | h | h | h | h
        · rw [h] at hpt hne
          simp [h, hpt, hne]
        · rw [h] at hpt hne
          simp [h, hpt, hne]
        · rw [h] at hpt; exact absurd p2 hpt
        · rw [h] at hpt; exact absurd p3 hpt
        · rw [h] at hpt; exact absurd p4 hpt
    simp [cgglobsym, hsize, cgglobsym_switch]
  · intro typesize h
    simp [cgglobsym, h]
  · intro name typesize s2 h1 h4
    simp [cgglobsym_switch, h1, h4]

/-- C17 on the sample table: the char `c` gets `.byte 0`, the int pointer `d`
gets `.long 0`, and the `switch` refuses the width 2. -/
theorem C17_cgglobsym_width_witness :
    (∃ s1 : CG, cgglobsym samplePtrtype sampleEnv 3 CG.init = Except.ok s1 ∧
      s1.Outfile.map Asm.render = ["\t.data\n\t.globl\tc\n", "c:\t.byte\t0\n"]) ∧
    (∃ s1 : CG, cgglobsym samplePtrtype sampleEnv 4 CG.init = Except.ok s1 ∧
      s1.Outfile.map Asm.render = ["\t.data\n\t.globl\td\n", "d:\t.long\t0\n"]) ∧
    cgglobsym_switch "x" 2 CG.init = fatald "Unknown typesize in cgglobsym: " 2 :=
  ⟨⟨_, (C17_cgglobsym_width samplePtrtype sampleEnv (by decide) (by decide) 3 CG.init).1 rfl,
      by decide⟩,
    ⟨_, (C17_cgglobsym_width samplePtrtype sampleEnv (by decide) (by decide) 4 CG.init).2.1
      (by decide), by decide⟩,
    (C17_cgglobsym_width samplePtrtype sampleEnv (by decide) (by decide) 4 CG.init).2.2.2
      "x" 2 CG.init (by decide) (by decide)⟩

/-- `cgpostamble` only prints: the pool and the register file are unchanged. -/
theorem cgpostamble_frame (E : Env) (s : CG) :
    (cgpostamble E s).Intslot = s.Intslot ∧ (cgpostamble E s).Intlist = s.Intlist ∧
    (cgpostamble E s).freereg = s.freereg ∧ (cgpostamble E s).pool = s.pool := by
  simp only [cgpostamble]
  rw [foldl_globals, foldl_ints]
  exact ⟨rfl, rfl, rfl, rfl⟩

/-- C18 (amended): after `cgpreamble`, whatever ran before it, all four
registers are free and the line `.text` has been printed; `cgpreamble` and
`cgpostamble` leave `Intlist` and `Intslot` as they are, so the literal pool
after a postamble and a preamble is the pool before them; the pool is empty
at program start. -/
theorem C18_preamble_resets_registers (s : CG) :
    (∀ r : Fin 4, (cgpreamble s).isFree r) ∧
    (cgpreamble s).Outfile = s.Outfile ++ [Asm.text] ∧
    (cgpreamble s).Intslot = s.Intslot ∧ (cgpreamble s).Intlist = s.Intlist ∧
    (cgpreamble s).pool = s.pool ∧
    (∀ E : Env, (cgpostamble E s).pool = s.pool ∧
      (cgpreamble (cgpostamble E s)).pool = s.pool) ∧
    CG.init.pool = [] := by
  refine ⟨?_, rfl, rfl, rfl, rfl, ?_, rfl⟩
  · intro r
    simp [cgpreamble, freeall_registers, CG.emit, CG.isFree]
  · intro E
    have h := (cgpostamble_frame E s).2.2.2
    exact ⟨h, h⟩

/-- C18 as stated fails for the literal pool: after a unit that loads 1000000,
its postamble and the preamble of the next unit, the pool still holds
1000000; the next unit then references `.L3+0` for it and its postamble lists
1000000 again. -/
theorem C18_counterexample :
    ∃ s1 : CG, cgloadint 1000000 3 (cgpreamble CG.init) = Except.ok (0, s1) ∧
      (cgpreamble (cgpostamble sampleEnv s1)).pool = [1000000] ∧
      (cgpreamble (cgpostamble sampleEnv s1)).pool ≠ [] ∧
      ∃ s2 : CG, cgloadint 1000000 3 (cgpreamble (cgpostamble sampleEnv s1)) =
          Except.ok (0, s2) ∧
        (cgpostamble sampleEnv s2).Outfile.drop (cgpostamble sampleEnv s1).Outfile.length =
          [Asm.text, Asm.ldrL3 0, Asm.ldr Reg.r4 Reg.r3, Asm.labelL2, Asm.wordSym "a",
            Asm.wordSym "b", Asm.wordSym "c", Asm.wordSym "d", Asm.wordSym "v", Asm.labelL3,
            Asm.wordInt 1000000] := by
  refine ⟨_, rfl, by decide, by decide, _, rfl, by decide⟩

end CgArm
